import Mathlib

/-!
# Admin console: SEO heuristics, REST client interceptors, mock keyword research

A shallow embedding of the algorithmic parts of the admin console
(`src/components/SEO/SEOAnalyzer.jsx`, `src/components/SEO/KeywordResearch.jsx`,
`src/components/Articles/SEOOptimizer.jsx`, `src/lib/api.js`, `src/lib/0/api.js`,
`src/0/App.jsx`, `src/00/App.jsx`) together with theorems about them.

Conventions of the embedding.

* A JavaScript string is a list of characters.  Lengths are counted in UTF-16 code
  units (`jsLength`), so a character outside the Basic Multilingual Plane counts twice.
  Strings with unpaired surrogates are not represented.
* `String.prototype.toLowerCase` is a function of the host; every definition that
  lower-cases takes it as the parameter `lc`, and the universal theorems hold for every
  choice of `lc`.
* JavaScript numbers are modelled by exact integers and rationals.  `Math.round x` is
  `⌊x + 1/2⌋`.  A quotient whose divisor can be `0` is treated explicitly where it occurs.
  The arithmetic on the results of `Math.random()` is binary64 arithmetic: every product
  and sum there is rounded with `toBinary64`.
* A call that throws is modelled by `Except JSError`.
-/

namespace AdminConsole

/-! ## JavaScript values and strings -/

/-- A JavaScript string, as the list of its characters. -/
abbrev JSString := List Char

/-- Number of UTF-16 code units of one character. -/
def unitLen (c : Char) : Nat := if c.toNat < 0x10000 then 1 else 2

/-- The `length` property of a string: its number of UTF-16 code units. -/
def jsLength : JSString → Nat
  | [] => 0
  | c :: cs => unitLen c + jsLength cs

/-- An argument that is either absent (`undefined`, `null`) or a string. -/
inductive JSArg where
  | undefined
  | null
  | str (s : JSString)
  deriving DecidableEq

/-- Truthiness of an argument: a string is truthy when it is not empty. -/
def JSArg.truthy : JSArg → Bool
  | .str (_ :: _) => true
  | _ => false

/-- String conversion as done by a template literal or by `+` with a string. -/
def JSArg.toStr : JSArg → JSString
  | .undefined => "undefined".toList
  | .null => "null".toList
  | .str s => s

/-- An exception thrown by the host. -/
inductive JSError where
  | typeError (msg : String)
  | syntaxError (msg : String)
  deriving DecidableEq

/-- The rounding of `Math.round`: nearest integer, halves towards plus infinity. -/
def mathRound (x : ℚ) : ℤ := ⌊x + 1 / 2⌋

/-- The class `\s` of a regular expression: white space and line terminators. -/
def isWhitespace (c : Char) : Bool :=
  let n := c.toNat
  n == 0x09 || n == 0x0A || n == 0x0B || n == 0x0C || n == 0x0D || n == 0x20 ||
  n == 0xA0 || n == 0x1680 || (0x2000 ≤ n && n ≤ 0x200A) || n == 0x2028 ||
  n == 0x2029 || n == 0x202F || n == 0x205F || n == 0x3000 || n == 0xFEFF

/-- Line terminators, the characters `.` does not match. -/
def isLineTerminator (c : Char) : Bool :=
  let n := c.toNat
  n == 0x0A || n == 0x0D || n == 0x2028 || n == 0x2029

/-- Whether `needle` starts `hay`. -/
def startsWith : JSString → JSString → Bool
  | _, [] => true
  | [], _ :: _ => false
  | h :: hs, n :: ns => h == n && startsWith hs ns

/-- The method `String.prototype.includes`: `needle` occurs somewhere in `hay`. -/
def includes : JSString → JSString → Bool
  | [], needle => startsWith [] needle
  | h :: hs, needle => startsWith (h :: hs) needle || includes hs needle

/-- Worker of `indexOf`: `i` is the code-unit offset of the current position. -/
def indexOfFrom (needle : JSString) : JSString → Nat → Int
  | [], i => if startsWith [] needle then (i : Int) else -1
  | h :: hs, i =>
    if startsWith (h :: hs) needle then (i : Int) else indexOfFrom needle hs (i + unitLen h)

/-- The method `String.prototype.indexOf`: offset of the first occurrence, or `-1`. -/
def indexOf (hay needle : JSString) : Int := indexOfFrom needle hay 0

/-- Worker of `split` with a separator `/[class]+/`: `inSep` tells that the previous
character belonged to a separator run, `cur` is the current piece, reversed. -/
def splitRunsGo (p : Char → Bool) : Bool → JSString → JSString → List JSString
  | _, cur, [] => [cur.reverse]
  | inSep, cur, c :: cs =>
    if p c then
      if inSep then splitRunsGo p true [] cs
      else cur.reverse :: splitRunsGo p true [] cs
    else splitRunsGo p false (c :: cur) cs

/-- The call `s.split(/[class]+/)`: the pieces between maximal runs of separator
characters; a separator run at either end of `s` yields an empty piece there. -/
def splitRuns (p : Char → Bool) (s : JSString) : List JSString :=
  splitRunsGo p false [] s

/-- The call `s.split(/\s+/)`. -/
def splitWhitespace (s : JSString) : List JSString := splitRuns isWhitespace s

/-- The method `String.prototype.trim`. -/
def trim (s : JSString) : JSString :=
  ((s.dropWhile isWhitespace).reverse.dropWhile isWhitespace).reverse

/-- Number of matches of `s.match(/re/g)`, where `m` gives the length of the match of
`re` anchored at the start of its argument.  After a match the scan resumes behind it
(`skip` counts the characters of the current match still to pass). -/
def countMatchesGo (m : JSString → Option Nat) : Nat → JSString → Nat
  | _, [] => 0
  | skip + 1, _ :: cs => countMatchesGo m skip cs
  | 0, c :: cs =>
    match m (c :: cs) with
    | some len => 1 + countMatchesGo m (len - 1) cs
    | none => countMatchesGo m 0 cs

/-- The value `(s.match(/re/g) || []).length`. -/
def countMatches (m : JSString → Option Nat) (s : JSString) : Nat := countMatchesGo m 0 s

/-- Whether `s` starts with exactly `k` further `#` followed by a white-space character. -/
def hashesThenSpace : Nat → JSString → Bool
  | 0, c :: _ => isWhitespace c
  | k + 1, c :: cs => c == '#' && hashesThenSpace k cs
  | _, [] => false

/-- The regular expression `#{1,6}\s` anchored at the start of `s`: the greedy quantifier
tries six, five, ... one `#`; the result is the length of the match. -/
def matchHeading (s : JSString) : Option Nat :=
  ([6, 5, 4, 3, 2, 1].find? (fun k => hashesThenSpace k s)).map (fun k => k + 1)

/-- A lazy `.*?` followed by the continuation `cont`: the continuation is tried first,
then one more character that is not a line terminator is consumed. -/
def lazyDot (cont : JSString → Option Nat) : JSString → Option Nat
  | [] => cont []
  | c :: cs =>
    match cont (c :: cs) with
    | some n => some n
    | none => if isLineTerminator c then none else (lazyDot cont cs).map (fun n => n + 1)

/-- The final `\)` of the link expression. -/
def matchCloseParen : JSString → Option Nat
  | ')' :: _ => some 1
  | _ => none

/-- The part `\]\(.*?\)` of the link expression. -/
def matchBracketParen : JSString → Option Nat
  | ']' :: '(' :: rest => (lazyDot matchCloseParen rest).map (fun n => n + 2)
  | _ => none

/-- The regular expression `\[.*?\]\(.*?\)` anchored at the start of `s`. -/
def matchLink : JSString → Option Nat
  | '[' :: rest => (lazyDot matchBracketParen rest).map (fun n => n + 1)
  | _ => none

/-! ## `SEOAnalyzer.jsx`: the analysis record -/

/-- The `details` object of a factor.  The early returns of `analyzeTitleTag` and
`analyzeMetaDescription` carry none.  For the keyword factor `density` is the number
the source formats with `toFixed(2)`. -/
inductive Details where
  | absent
  | title (length : Nat) (hasKeyword : Bool) (keywordPosition : Int)
  | metaDescription (length : Nat) (hasKeyword : Bool)
  | wordCount (n : Nat)
  | keyword (density : ℚ) (count : Nat)
  | headingCount (n : Nat)
  | linkCount (n : Nat)
  deriving DecidableEq

/-- One entry of `analysis.factors`. -/
structure Factor where
  name : String
  score : Int
  status : String
  issues : List JSString
  recommendations : List JSString
  details : Details
  deriving DecidableEq

/-- One entry of `competitorAnalysis.topCompetitors`. -/
structure Competitor where
  url : String
  score : Int
  title : JSString
  deriving DecidableEq

/-- The object returned by `generateCompetitorAnalysis`. -/
structure CompetitorAnalysis where
  topCompetitors : List Competitor
  averageScore : Int
  averageWordCount : Int
  commonKeywords : List String
  deriving DecidableEq

/-- The object built by `performSEOAnalysis`.  `keywordDensity` lists the properties of
the density object in insertion order, each with its `count` and its `density` (the
number the source formats with `toFixed(2)`); `technicalSEO` lists the checks with
score and status. -/
structure Analysis where
  overallScore : Int
  factors : List Factor
  recommendations : List JSString
  keywordDensity : List (JSString × Nat × ℚ)
  readabilityScore : Int
  competitorAnalysis : Option CompetitorAnalysis
  technicalSEO : List (String × Int × String)
  deriving DecidableEq

/-- The expression `score >= 80 ? 'success' : score >= 60 ? 'warning' : 'error'`. -/
def statusOf (score : Int) : String :=
  if score ≥ 80 then "success" else if score ≥ 60 then "warning" else "error"

/-! ## `SEOAnalyzer.jsx`: the factor checks -/

/-- The local variables `score`, `issues`, `recommendations` that every check of the
analyzer updates. -/
structure Acc where
  score : Int
  issues : List JSString
  recommendations : List JSString
  deriving DecidableEq

/-- The initial values `let score = 0; const issues = []; const recommendations = []`. -/
def Acc.init : Acc := { score := 0, issues := [], recommendations := [] }

section Analyzer

variable (lc : JSString → JSString)

/-- The block "Length check" of `analyzeTitleTag` (lines 108-119). -/
def titleLengthCheck (title : JSString) (a : Acc) : Acc :=
  if jsLength title < 30 then
    { score := a.score + 20,
      issues := a.issues ++ ["Title too short".toList],
      recommendations := a.recommendations ++ ["Expand title to 50-60 characters".toList] }
  else if jsLength title > 60 then
    { score := a.score + 60,
      issues := a.issues ++ ["Title too long".toList],
      recommendations := a.recommendations ++ ["Shorten title to under 60 characters".toList] }
  else { a with score := a.score + 100 }

/-- The block "Keyword presence" of `analyzeTitleTag` (lines 121-127). -/
def titleKeywordPresence (title : JSString) (keyword : JSArg) (a : Acc) : Acc :=
  if keyword.truthy && includes (lc title) (lc keyword.toStr) then
    { a with score := a.score + 100 }
  else
    { a with
      issues := a.issues ++ ["Target keyword not in title".toList],
      recommendations := a.recommendations ++
        ["Include \"".toList ++ keyword.toStr ++ "\" in the title".toList] }

/-- The block "Keyword position" of `analyzeTitleTag` (lines 129-135). -/
def titleKeywordPosition (title : JSString) (keyword : JSArg) (a : Acc) : Acc :=
  if keyword.truthy && indexOf (lc title) (lc keyword.toStr) == 0 then
    { a with score := a.score + 50 }
  else if keyword.truthy && includes (lc title) (lc keyword.toStr) then
    { a with
      recommendations := a.recommendations ++
        ["Move target keyword closer to the beginning".toList],
      score := a.score + 25 }
  else a

/-- The function `analyzeTitleTag` (lines 97-152). -/
def analyzeTitleTag (title keyword : JSArg) : Factor :=
  if !title.truthy then
    { name := "Title Tag", score := 0, status := "error",
      issues := ["Missing title tag".toList],
      recommendations := ["Add a descriptive title tag".toList],
      details := .absent }
  else
    let t := title.toStr
    let a := titleLengthCheck t Acc.init
    let a := titleKeywordPresence lc t keyword a
    let a := titleKeywordPosition lc t keyword a
    let finalScore := mathRound ((a.score : ℚ) / (5 / 2))
    { name := "Title Tag", score := finalScore, status := statusOf finalScore,
      issues := a.issues, recommendations := a.recommendations,
      details := .title (jsLength t)
        (if keyword.truthy then includes (lc t) (lc keyword.toStr) else false)
        (if keyword.truthy then indexOf (lc t) (lc keyword.toStr) else -1) }

/-- The block "Length check" of `analyzeMetaDescription` (lines 165-176). -/
def metaLengthCheck (metaDescription : JSString) (a : Acc) : Acc :=
  if jsLength metaDescription < 120 then
    { score := a.score + 60,
      issues := a.issues ++ ["Meta description too short".toList],
      recommendations := a.recommendations ++
        ["Expand meta description to 150-160 characters".toList] }
  else if jsLength metaDescription > 160 then
    { score := a.score + 70,
      issues := a.issues ++ ["Meta description too long".toList],
      recommendations := a.recommendations ++
        ["Shorten meta description to under 160 characters".toList] }
  else { a with score := a.score + 100 }

/-- The block "Keyword presence" of `analyzeMetaDescription` (lines 178-184). -/
def metaKeywordPresence (metaDescription : JSString) (keyword : JSArg) (a : Acc) : Acc :=
  if keyword.truthy && includes (lc metaDescription) (lc keyword.toStr) then
    { a with score := a.score + 100 }
  else
    { a with
      issues := a.issues ++ ["Target keyword not in meta description".toList],
      recommendations := a.recommendations ++
        ["Include \"".toList ++ keyword.toStr ++ "\" in the meta description".toList] }

/-- The function `analyzeMetaDescription` (lines 154-200). -/
def analyzeMetaDescription (metaDescription keyword : JSArg) : Factor :=
  if !metaDescription.truthy then
    { name := "Meta Description", score := 0, status := "error",
      issues := ["Missing meta description".toList],
      recommendations := ["Add a compelling meta description".toList],
      details := .absent }
  else
    let m := metaDescription.toStr
    let a := metaLengthCheck m Acc.init
    let a := metaKeywordPresence lc m keyword a
    let finalScore := mathRound ((a.score : ℚ) / 2)
    { name := "Meta Description", score := finalScore, status := statusOf finalScore,
      issues := a.issues, recommendations := a.recommendations,
      details := .metaDescription (jsLength m)
        (if keyword.truthy then includes (lc m) (lc keyword.toStr) else false) }

/-- The expression `content ? content.split(/\s+/).length : 0` (line 207). -/
def wordCount (content : JSArg) : Nat :=
  if content.truthy then (splitWhitespace content.toStr).length else 0

/-- The chain of comparisons on the word count (lines 208-221); `lengthScore` is
assigned, not accumulated. -/
def contentLengthCheck (wc : Nat) : Acc :=
  if wc < 300 then
    { score := 30, issues := ["Content too short".toList],
      recommendations := ["Expand content to at least 300 words".toList] }
  else if wc < 600 then
    { score := 70, issues := [],
      recommendations := ["Consider expanding content for better coverage".toList] }
  else { score := 100, issues := [], recommendations := [] }

/-- The Content Length factor built in `analyzeContentQuality` (lines 206-230). -/
def contentLengthFactor (content : JSArg) : Factor :=
  let a := contentLengthCheck (wordCount content)
  { name := "Content Length", score := a.score, status := statusOf a.score,
    issues := a.issues, recommendations := a.recommendations,
    details := .wordCount (wordCount content) }

/-- Number of pieces of the lower-cased content that contain the lower-cased keyword
(lines 263-264, and again 364-368). -/
def keywordCount (content keyword : JSString) : Nat :=
  ((splitWhitespace (lc content)).filter (fun word => includes word (lc keyword))).length

/-- The value `(keywordCount / words.length) * 100` (line 265).  The array returned by
`split` is never empty, so the divisor is positive. -/
def keywordDensityOf (content keyword : JSString) : ℚ :=
  ((keywordCount lc content keyword : ℚ) / ((splitWhitespace (lc content)).length : ℚ)) * 100

/-- The chain of comparisons on the density in `analyzeKeywordUsage` (lines 267-285);
`score` is assigned, not accumulated. -/
def keywordUsageCheck (density : ℚ) (keyword : JSString) : Acc :=
  if density = 0 then
    { score := 0, issues := ["Target keyword not found in content".toList],
      recommendations := ["Include \"".toList ++ keyword ++ "\" naturally in the content".toList] }
  else if density < 1 / 2 then
    { score := 40, issues := ["Keyword density too low".toList],
      recommendations :=
        ["Increase usage of \"".toList ++ keyword ++ "\" (aim for 0.5-2%)".toList] }
  else if density > 3 then
    { score := 50, issues := ["Keyword density too high (keyword stuffing)".toList],
      recommendations :=
        ["Reduce usage of \"".toList ++ keyword ++ "\" to avoid keyword stuffing".toList] }
  else { score := 100, issues := [], recommendations := [] }

/-- The function `analyzeKeywordUsage` (lines 251-297). -/
def analyzeKeywordUsage (content keyword : JSArg) : Factor :=
  if !keyword.truthy || !content.truthy then
    { name := "Keyword Usage", score := 0, status := "error",
      issues := ["No target keyword specified".toList],
      recommendations := ["Set a target keyword for analysis".toList],
      details := .keyword 0 0 }
  else
    let density := keywordDensityOf lc content.toStr keyword.toStr
    let a := keywordUsageCheck density keyword.toStr
    { name := "Keyword Usage", score := a.score, status := statusOf a.score,
      issues := a.issues, recommendations := a.recommendations,
      details := .keyword density (keywordCount lc content.toStr keyword.toStr) }

/-- The chain of comparisons on the heading count (lines 303-316). -/
def headingCountCheck (headingCount : Nat) : Acc :=
  if headingCount = 0 then
    { score := 20, issues := ["No headings found".toList],
      recommendations := ["Add H2 and H3 headings to structure your content".toList] }
  else if headingCount < 3 then
    { score := 70, issues := [],
      recommendations := ["Consider adding more headings for better structure".toList] }
  else { score := 100, issues := [], recommendations := [] }

/-- The body of `analyzeHeadingStructure` (lines 301-327) for a string `content`. -/
def headingStructureOf (content : JSString) : Factor :=
  let headingCount := countMatches matchHeading content
  let a := headingCountCheck headingCount
  { name := "Heading Structure", score := a.score, status := statusOf a.score,
    issues := a.issues, recommendations := a.recommendations,
    details := .headingCount headingCount }

/-- The function `analyzeHeadingStructure` (lines 299-328).  The method call
`content.match` throws a `TypeError` when `content` is `undefined` or `null`. -/
def analyzeHeadingStructure (content : JSArg) : Except JSError Factor :=
  match content with
  | .str s => .ok (headingStructureOf s)
  | _ => .error (.typeError "content.match: content is undefined or null")

/-- The chain of comparisons on the link count (lines 334-347). -/
def linkCountCheck (linkCount : Nat) : Acc :=
  if linkCount = 0 then
    { score := 30, issues := ["No internal or external links found".toList],
      recommendations := ["Add relevant internal and external links".toList] }
  else if linkCount < 3 then
    { score := 70, issues := [],
      recommendations := ["Consider adding more relevant links".toList] }
  else { score := 100, issues := [], recommendations := [] }

/-- The body of `analyzeLinkStructure` (lines 332-358) for a string `content`. -/
def linkStructureOf (content : JSString) : Factor :=
  let linkCount := countMatches matchLink content
  let a := linkCountCheck linkCount
  { name := "Link Structure", score := a.score, status := statusOf a.score,
    issues := a.issues, recommendations := a.recommendations,
    details := .linkCount linkCount }

/-- The function `analyzeLinkStructure` (lines 330-359).  The method call
`content.match` throws a `TypeError` when `content` is `undefined` or `null`. -/
def analyzeLinkStructure (content : JSArg) : Except JSError Factor :=
  match content with
  | .str s => .ok (linkStructureOf s)
  | _ => .error (.typeError "content.match: content is undefined or null")

/-- The function `analyzeContentQuality` (lines 202-249): the four content factors and
the sum of their scores. -/
def analyzeContentQuality (content keyword : JSArg) : Except JSError (List Factor × Int) := do
  let lengthFactor := contentLengthFactor content
  let totalScore := 0 + lengthFactor.score
  let keywordAnalysis := analyzeKeywordUsage lc content keyword
  let totalScore := totalScore + keywordAnalysis.score
  let headingAnalysis ← analyzeHeadingStructure content
  let totalScore := totalScore + headingAnalysis.score
  let linkAnalysis ← analyzeLinkStructure content
  let totalScore := totalScore + linkAnalysis.score
  return ([lengthFactor, keywordAnalysis, headingAnalysis, linkAnalysis], totalScore)

/-- The function `generateRelatedKeywords` (lines 413-423): the first three of five
templates. -/
def generateRelatedKeywords (keyword : JSString) : List JSString :=
  [keyword ++ " guide".toList,
   "best ".toList ++ keyword,
   keyword ++ " tips".toList,
   "how to ".toList ++ keyword,
   keyword ++ " review".toList].take 3

/-- The assignment `obj[key] = value` on an object kept as the list of its properties. -/
def setProp {β : Type} (key : JSString) (value : β) : List (JSString × β) → List (JSString × β)
  | [] => [(key, value)]
  | (k, v) :: rest => if k = key then (k, value) :: rest else (k, v) :: setProp key value rest

/-- The function `analyzeKeywordDensity` (lines 361-382): count and density of the
keyword and of its related keywords. -/
def analyzeKeywordDensity (content keyword : JSArg) : List (JSString × Nat × ℚ) :=
  if !content.truthy || !keyword.truthy then []
  else
    let c := content.toStr
    let k := keyword.toStr
    let keywordData : List (JSString × Nat × ℚ) :=
      [(k, keywordCount lc c k, keywordDensityOf lc c k)]
    (generateRelatedKeywords k).foldl
      (fun data relatedKeyword =>
        setProp relatedKeyword
          (keywordCount lc c relatedKeyword, keywordDensityOf lc c relatedKeyword) data)
      keywordData

/-- The class `[.!?]` that separates sentences in `analyzeReadability`. -/
def isSentenceEnd (c : Char) : Bool := c == '.' || c == '!' || c == '?'

/-- The comparison `a / b > t` for non-negative integers `a ≥ 1`, `b`: the quotient is
`Infinity` when `b` is `0`. -/
def quotientExceeds (a b : Nat) (t : ℚ) : Bool :=
  if b = 0 then true else decide ((a : ℚ) / (b : ℚ) > t)

/-- The function `analyzeReadability` (lines 384-411). -/
def analyzeReadability (content : JSArg) : Int :=
  if !content.truthy then 0
  else
    let c := content.toStr
    let sentences := (splitRuns isSentenceEnd c).filter (fun s => jsLength (trim s) > 0)
    let words := splitWhitespace c
    let score : Int := 100
    let score :=
      if quotientExceeds words.length sentences.length 20 then score - 20
      else if quotientExceeds words.length sentences.length 15 then score - 10
      else score
    let complexWords := (words.filter (fun word => jsLength word > 8)).length
    let complexWordRatio : ℚ := ((complexWords : ℚ) / (words.length : ℚ)) * 100
    let score :=
      if complexWordRatio > 15 then score - 20
      else if complexWordRatio > 10 then score - 10
      else score
    max 0 (min 100 score)

/-- The expression `[...new Set(xs)]`: the first occurrences, in order. -/
def uniqueInOrder (xs : List JSString) : List JSString :=
  xs.foldl (fun acc x => if x ∈ acc then acc else acc ++ [x]) []

/-- The function `generateRecommendations` (lines 425-445). -/
def generateRecommendations (analysis : Analysis) : List JSString :=
  let recommendations : List JSString :=
    analysis.factors.foldl
      (fun recs factor => if factor.score < 80 then recs ++ factor.recommendations else recs) []
  let recommendations :=
    if analysis.overallScore < 70 then
      recommendations ++
        ["Focus on improving content quality and keyword optimization".toList,
         "Consider competitor analysis to identify content gaps".toList]
    else recommendations
  let recommendations :=
    if analysis.readabilityScore < 70 then
      recommendations ++
        ["Improve readability by using shorter sentences and simpler words".toList]
    else recommendations
  uniqueInOrder recommendations

/-- The array `recommendations` of `generateRecommendations` before the final
`[...new Set(recommendations)]` (lines 426-442). -/
def collectedRecommendations (analysis : Analysis) : List JSString :=
  analysis.factors.foldl
      (fun recs factor => if factor.score < 80 then recs ++ factor.recommendations else recs) []
    ++ (if analysis.overallScore < 70 then
        ["Focus on improving content quality and keyword optimization".toList,
         "Consider competitor analysis to identify content gaps".toList]
      else [])
    ++ (if analysis.readabilityScore < 70 then
        ["Improve readability by using shorter sentences and simpler words".toList]
      else [])

/-- The function `generateCompetitorAnalysis` (lines 447-459). -/
def generateCompetitorAnalysis (keyword : JSArg) : CompetitorAnalysis :=
  { topCompetitors :=
      [{ url := "competitor1.com", score := 85, title := "Best Guide to ".toList ++ keyword.toStr },
       { url := "competitor2.com", score := 82, title := keyword.toStr ++ " Complete Tutorial".toList },
       { url := "competitor3.com", score := 78,
         title := "Ultimate ".toList ++ keyword.toStr ++ " Resource".toList }],
    averageScore := 82,
    averageWordCount := 1200,
    commonKeywords := ["guide", "best", "complete", "ultimate"] }

/-- The function `performTechnicalSEOChecks` (lines 460-468). -/
def performTechnicalSEOChecks : List (String × Int × String) :=
  [("pageSpeed", 85, "good"), ("mobileOptimization", 90, "excellent"),
   ("schemaMarkup", 60, "needs_improvement"), ("imageOptimization", 75, "good")]

/-- The function `performSEOAnalysis` (lines 44-95). -/
def performSEOAnalysis (content title metaDescription targetKeyword : JSArg) :
    Except JSError Analysis := do
  let analysis : Analysis :=
    { overallScore := 0, factors := [], recommendations := [], keywordDensity := [],
      readabilityScore := 0, competitorAnalysis := none, technicalSEO := [] }
  let totalScore : Int := 0
  let factorCount : Nat := 0
  -- Title Analysis
  let titleAnalysis := analyzeTitleTag lc title targetKeyword
  let analysis := { analysis with factors := analysis.factors ++ [titleAnalysis] }
  let totalScore := totalScore + titleAnalysis.score
  let factorCount := factorCount + 1
  -- Meta Description Analysis
  let metaAnalysis := analyzeMetaDescription lc metaDescription targetKeyword
  let analysis := { analysis with factors := analysis.factors ++ [metaAnalysis] }
  let totalScore := totalScore + metaAnalysis.score
  let factorCount := factorCount + 1
  -- Content Analysis
  let contentAnalysis ← analyzeContentQuality lc content targetKeyword
  let analysis := { analysis with factors := analysis.factors ++ contentAnalysis.1 }
  let totalScore := totalScore + contentAnalysis.2
  let factorCount := factorCount + contentAnalysis.1.length
  -- Keyword Density Analysis
  let analysis := { analysis with keywordDensity := analyzeKeywordDensity lc content targetKeyword }
  -- Readability Analysis
  let analysis := { analysis with readabilityScore := analyzeReadability content }
  -- Calculate overall score
  let analysis :=
    { analysis with overallScore := mathRound ((totalScore : ℚ) / (factorCount : ℚ)) }
  -- Generate recommendations
  let analysis := { analysis with recommendations := generateRecommendations analysis }
  -- Simulate competitor analysis
  let analysis :=
    { analysis with competitorAnalysis := some (generateCompetitorAnalysis targetKeyword) }
  -- Technical SEO checks
  let analysis := { analysis with technicalSEO := performTechnicalSEOChecks }
  return analysis

end Analyzer

/-- Lower-casing of the letters `A`-`Z`, which is what `toLowerCase` does on a string
of ASCII characters. -/
def asciiLower (s : JSString) : JSString := s.map Char.toLower

/-! ## `SEOOptimizer.jsx`: the keyword-density badge -/

/-- The condition `analysis.keyword_density >= 1 && analysis.keyword_density <= 3`
(lines 200 and 206). -/
def densityGood (keyword_density : ℚ) : Bool :=
  decide (keyword_density ≥ 1) && decide (keyword_density ≤ 3)

/-- The class of the keyword-density badge (lines 199-203). -/
def densityBadgeClass (keyword_density : ℚ) : String :=
  if densityGood keyword_density then "bg-green-100 text-green-800"
  else "bg-yellow-100 text-yellow-800"

/-- The icon next to the keyword-density badge (lines 206-210): component and class. -/
def densityIcon (keyword_density : ℚ) : String × String :=
  if densityGood keyword_density then ("CheckCircle", "w-4 h-4 text-green-600")
  else ("AlertCircle", "w-4 h-4 text-yellow-600")

/-! ## `KeywordResearch.jsx`: mock keyword data -/

/-- One entry returned by `generateMockKeywords`.  `cpc` is the number the source
formats with `toFixed(2)`; `competition` and `intent` are `none` when the table index
is out of range (`undefined`). -/
structure MockKeyword where
  keyword : JSString
  searchVolume : Int
  difficulty : Int
  cpc : ℚ
  competition : Option String
  trend : String
  intent : Option String
  deriving DecidableEq

/-- Indexing of an array by a number that is an integer: `undefined` out of range. -/
def arrayAt {α : Type} (xs : List α) (i : Int) : Option α :=
  if i < 0 then none else xs.get? i.toNat

/-- The array `variations` of `generateMockKeywords` (lines 74-90). -/
def variations (baseTerm : JSString) : List JSString :=
  [baseTerm,
   baseTerm ++ " guide".toList,
   "best ".toList ++ baseTerm,
   baseTerm ++ " tips".toList,
   "how to ".toList ++ baseTerm,
   baseTerm ++ " review".toList,
   baseTerm ++ " 2024".toList,
   baseTerm ++ " for beginners".toList,
   baseTerm ++ " tutorial".toList,
   baseTerm ++ " examples".toList,
   baseTerm ++ " benefits".toList,
   baseTerm ++ " cost".toList,
   baseTerm ++ " vs".toList,
   baseTerm ++ " comparison".toList,
   baseTerm ++ " tools".toList]

/-- Rounding of a rational to the nearest integer, a tie going to the even one. -/
def roundNearestEven (q : ℚ) : ℤ :=
  if q - ⌊q⌋ < 1 / 2 then ⌊q⌋
  else if q - ⌊q⌋ > 1 / 2 then ⌊q⌋ + 1
  else if ⌊q⌋ % 2 = 0 then ⌊q⌋ else ⌊q⌋ + 1

/-- The binary64 number nearest to `x`, a tie going to the even significand: the result
of an arithmetic operation whose exact value is `x`.  The significand has 53 bits and
the least exponent is `-1022` (below it the spacing stays `2^-1074`).  Overflow to
`Infinity` (`|x| ≥ 2^1024`) is not modelled. -/
def toBinary64 (x : ℚ) : ℚ :=
  if x = 0 then 0
  else
    (roundNearestEven (x / (2 : ℚ) ^ (max (Int.log 2 |x|) (-1022) - 52)) : ℚ) *
      (2 : ℚ) ^ (max (Int.log 2 |x|) (-1022) - 52)

/-- The object built for one variation (lines 92-100) from six consecutive results
`r0 .. r5` of `Math.random()`, in the order of the property initialisers.  The products
`r * 10000`, `r * 100`, `r * 5`, `r * 3`, `r * 4`, the literal `0.1` and the sum
`r * 5 + 0.1` are binary64 numbers; `Math.floor` and the addition of 100 to an integer
are exact. -/
def mockKeywordOf (keyword : JSString) (r0 r1 r2 r3 r4 r5 : ℚ) : MockKeyword :=
  { keyword := keyword,
    searchVolume := ⌊toBinary64 (r0 * 10000)⌋ + 100,
    difficulty := ⌊toBinary64 (r1 * 100)⌋,
    cpc := toBinary64 (toBinary64 (r2 * 5) + toBinary64 (1 / 10)),
    competition := arrayAt ["Low", "Medium", "High"] ⌊toBinary64 (r3 * 3)⌋,
    trend := if r4 > 1 / 2 then "up" else "down",
    intent :=
      arrayAt ["Informational", "Commercial", "Transactional", "Navigational"]
        ⌊toBinary64 (r5 * 4)⌋ }

/-- Worker of `generateMockKeywords`: the map over `variations`, where `random n` is the
result of the `n`-th call of `Math.random()`, a binary64 number, and `index` is the index
of the entry. -/
def mapVariations (random : Nat → ℚ) : Nat → List JSString → List MockKeyword
  | _, [] => []
  | index, keyword :: rest =>
    mockKeywordOf keyword (random (6 * index)) (random (6 * index + 1))
        (random (6 * index + 2)) (random (6 * index + 3)) (random (6 * index + 4))
        (random (6 * index + 5))
      :: mapVariations random (index + 1) rest

/-- The function `generateMockKeywords` (lines 73-101), given the sequence of results
of `Math.random()`. -/
def generateMockKeywords (baseTerm : JSString) (random : Nat → ℚ) : List MockKeyword :=
  mapVariations random 0 (variations baseTerm)

/-! ## `lib/api.js` and `lib/0/api.js`: the interceptors -/

/-- The browser state the client touches: `localStorage` as the list of its items and
`window.location.href`. -/
structure Browser where
  localStorage : List (String × String)
  href : String
  deriving DecidableEq

/-- The call `localStorage.getItem(key)`: `none` is `null`. -/
def getItem (key : String) (storage : List (String × String)) : Option String :=
  (storage.find? (fun kv => kv.1 == key)).map (fun kv => kv.2)

/-- The call `localStorage.removeItem(key)`. -/
def removeItem (key : String) (storage : List (String × String)) : List (String × String) :=
  storage.filter (fun kv => !(kv.1 == key))

/-- The part of an HTTP response the interceptors read. -/
structure HttpResponse where
  status : Int
  data : String
  deriving DecidableEq

/-- The error handed to a response interceptor; `response` is `none` when the error has
no response (network failure, cancellation). -/
structure RequestError where
  message : String
  response : Option HttpResponse
  deriving DecidableEq

/-- A settled promise. -/
inductive Settled (α : Type) where
  | fulfilled (value : α)
  | rejected (reason : RequestError)
  deriving DecidableEq

/-- The request configuration handed to a request interceptor. -/
structure RequestConfig where
  method : String
  baseURL : String
  url : String
  headers : List (String × String)
  params : List (String × String)
  data : Option String
  deriving DecidableEq

/-- The assignment `headers[name] = value`. -/
def setHeader (name value : String) : List (String × String) → List (String × String)
  | [] => [(name, value)]
  | (k, v) :: rest =>
    if k = name then (k, value) :: rest else (k, v) :: setHeader name value rest

/-- The header `name` of a configuration, `none` when it is not set. -/
def getHeader (name : String) (headers : List (String × String)) : Option String :=
  (headers.find? (fun kv => kv.1 == name)).map (fun kv => kv.2)

/-- The request interceptor of `lib/api.js` (lines 17-24): reads the token and attaches
it when it is truthy. -/
def apiRequestInterceptor (b : Browser) (config : RequestConfig) : RequestConfig :=
  match getItem "admin_token" b.localStorage with
  | some token =>
    if token ≠ "" then
      { config with headers := setHeader "Authorization" ("Bearer " ++ token) config.headers }
    else config
  | none => config

/-- The request interceptor of `lib/0/api.js` (lines 17-24), the same text. -/
def apiClientRequestInterceptor (b : Browser) (config : RequestConfig) : RequestConfig :=
  match getItem "admin_token" b.localStorage with
  | some token =>
    if token ≠ "" then
      { config with headers := setHeader "Authorization" ("Bearer " ++ token) config.headers }
    else config
  | none => config

/-- The response-error interceptor of `lib/api.js` (lines 33-40): the browser state
after the call and the promise it returns. -/
def apiResponseErrorInterceptor {α : Type} (error : RequestError) (b : Browser) :
    Browser × Settled α :=
  let b :=
    if (error.response.map (fun r => r.status)) = some 401 then
      { localStorage := removeItem "admin_user" (removeItem "admin_token" b.localStorage),
        href := "/login" }
    else b
  (b, .rejected error)

/-- The response-error interceptor of `lib/0/api.js` (lines 33-40), the same text. -/
def apiClientResponseErrorInterceptor {α : Type} (error : RequestError) (b : Browser) :
    Browser × Settled α :=
  let b :=
    if (error.response.map (fun r => r.status)) = some 401 then
      { localStorage := removeItem "admin_user" (removeItem "admin_token" b.localStorage),
        href := "/login" }
    else b
  (b, .rejected error)

/-! ## `0/App.jsx` and `00/App.jsx`: the query client -/

/-- The `defaultOptions.queries` of a query client. -/
structure QueryDefaults where
  retry : Nat
  refetchOnWindowFocus : Bool
  deriving DecidableEq

/-- The `queryClient` of `00/App.jsx` (lines 19-26). -/
def queryClient00 : QueryDefaults := { retry := 1, refetchOnWindowFocus := false }

/-- The `queryClient` of `0/App.jsx` (lines 15-22). -/
def queryClient0 : QueryDefaults := { retry := 1, refetchOnWindowFocus := false }
/-! ## `KeywordResearch.jsx`: the CSV export -/

/-- The method `Array.prototype.join`. -/
def joinWith (sep : JSString) : List JSString → JSString
  | [] => []
  | [x] => x
  | x :: y :: rest => x ++ sep ++ joinWith sep (y :: rest)

/-- String conversion of a number that is an integer: its decimal digits. -/
def numberToString (n : Int) : JSString := (toString n).toList

/-- The two decimal digits of `n % 100`. -/
def twoDigits (n : Nat) : JSString :=
  [Nat.digitChar (n % 100 / 10), Nat.digitChar (n % 10)]

/-- The call `x.toFixed(2)`: sign, integer part, point and two decimals of the multiple
of `1/100` nearest to `x` (the larger one at a tie). -/
def toFixed2 (x : ℚ) : JSString :=
  let n : Nat := (⌊|x| * 100 + 1 / 2⌋).toNat
  (if x < 0 then ['-'] else []) ++ (toString (n / 100)).toList ++ ['.'] ++ twoDigits n

/-- String conversion of an array element in `join`: `undefined` gives the empty
string. -/
def optionToString : Option String → JSString
  | some s => s.toList
  | none => []

/-- The header row of the export (line 186). -/
def csvHeader : List JSString :=
  ["Keyword".toList, "Search Volume".toList, "Difficulty".toList, "CPC".toList,
   "Competition".toList, "Intent".toList]

/-- The row of one keyword (line 187), its cells converted as `join` converts them. -/
def csvRow (k : MockKeyword) : List JSString :=
  [k.keyword, numberToString k.searchVolume, numberToString k.difficulty, toFixed2 k.cpc,
   optionToString k.competition, optionToString k.intent]

/-- The rows of the export before joining (lines 185-188). -/
def csvRows (keywords : List MockKeyword) : List (List JSString) :=
  csvHeader :: keywords.map csvRow

/-- The lines of the export: every row joined with a comma. -/
def csvLines (keywords : List MockKeyword) : List JSString :=
  (csvRows keywords).map (joinWith [','])

/-- The text `csvContent` built by `exportKeywords` (lines 185-188) from the state
`keywords`; the download of the text that follows is not modelled. -/
def exportKeywords (keywords : List MockKeyword) : JSString :=
  joinWith ['\n'] (csvLines keywords)

/-- Number of comma-separated fields of a line of text. -/
def fieldCount (line : JSString) : Nat := line.count ',' + 1

/-- Number of lines of a text. -/
def lineCount (text : JSString) : Nat := text.count '\n' + 1

/-! ## Words, as the specification counts them -/

/-- Worker of `countWords`: `inWord` tells that the previous character was not white
space. -/
def countWordsGo : Bool → JSString → Nat
  | _, [] => 0
  | inWord, c :: cs =>
    if isWhitespace c then countWordsGo false cs
    else (if inWord then 0 else 1) + countWordsGo true cs

/-- The number of words of a text in the words of the specification: the number of
maximal runs of characters that are not white space.  This is not a function of the
source; it is what the Content Length factor is compared with. -/
def countWords (s : JSString) : Nat := countWordsGo false s

/-! ## JavaScript values -/

/-- A JavaScript value as JSON or an argument list carries it. -/
inductive JSValue where
  | undefined
  | null
  | bool (b : Bool)
  | num (x : ℚ)
  | str (s : String)
  | arr (items : List JSValue)
  | obj (members : List (String × JSValue))

/-- Truthiness of a value. -/
def JSValue.truthy : JSValue → Bool
  | .undefined => false
  | .null => false
  | .bool b => b
  | .num x => decide (x ≠ 0)
  | .str s => decide (s ≠ "")
  | .arr _ => true
  | .obj _ => true

/-! ## `lib/0/auth.js`: the authentication utilities -/

/-- The constant `AUTH_TOKEN_KEY`. -/
def AUTH_TOKEN_KEY : String := "admin_token"

/-- The constant `AUTH_USER_KEY`. -/
def AUTH_USER_KEY : String := "admin_user"

/-- The call `localStorage.setItem(key, value)`. -/
def setItem (key value : String) : List (String × String) → List (String × String)
  | [] => [(key, value)]
  | (k, v) :: rest =>
    if k = key then (k, value) :: rest else (k, v) :: setItem key value rest

namespace authUtils

/-- The method `getToken` (lines 7-9): the browser afterwards and the result, where
`none` is `null`. -/
def getToken (b : Browser) : Browser × Option String :=
  (b, getItem AUTH_TOKEN_KEY b.localStorage)

/-- The method `removeToken` (lines 17-19). -/
def removeToken (b : Browser) : Browser :=
  { b with localStorage := removeItem AUTH_TOKEN_KEY b.localStorage }

/-- The method `removeUser` (lines 33-35). -/
def removeUser (b : Browser) : Browser :=
  { b with localStorage := removeItem AUTH_USER_KEY b.localStorage }

/-- The method `clearAuth` (lines 45-48). -/
def clearAuth (b : Browser) : Browser :=
  removeUser (removeToken b)

/-- The method `logout` (lines 57-60). -/
def logout (b : Browser) : Browser :=
  { clearAuth b with href := "/login" }

section Parse

-- `jsonParse` is the function `JSON.parse` of the host: the parsed value, or the
-- `SyntaxError` it throws.
variable (jsonParse : String → Except JSError JSValue)

/-- The method `getUser` (lines 22-25): the stored text is parsed when it is truthy,
otherwise the result is `null`. -/
def getUser (b : Browser) : Browser × Except JSError JSValue :=
  match getItem AUTH_USER_KEY b.localStorage with
  | some user => if user ≠ "" then (b, jsonParse user) else (b, .ok .null)
  | none => (b, .ok .null)

/-- The method `isAuthenticated` (lines 38-42): `!!(token && user)`. -/
def isAuthenticated (b : Browser) : Browser × Except JSError Bool :=
  let (b, token) := getToken b
  let (b, user) := getUser jsonParse b
  match user with
  | .error e => (b, .error e)
  | .ok user =>
    (b, .ok (match token with
      | some token => decide (token ≠ "") && user.truthy
      | none => false))

end Parse

end authUtils

/-! ## `lib/api.js` and `lib/0/api.js`: the endpoints -/

/-- A piece of a template literal: literal text or a substituted value. -/
inductive UrlPiece where
  | text (s : String)
  | value (v : JSValue)

/-- The request a client method issues: HTTP method, path relative to the base URL (a
template literal, as the list of its pieces), query parameters and body; `undefined`
stands for a parameter or body that is not passed. -/
structure ApiCall where
  method : String
  url : List UrlPiece
  params : JSValue
  data : JSValue

/-- The `n`-th argument of an argument list, `undefined` when it is not passed. -/
def argAt (args : List JSValue) (n : Nat) : JSValue := args.getD n .undefined

/-- The call `client.get(url)`. -/
def httpGet (url : List UrlPiece) : ApiCall :=
  { method := "get", url := url, params := .undefined, data := .undefined }

/-- The call `client.get(url, { params })`. -/
def httpGetParams (url : List UrlPiece) (params : JSValue) : ApiCall :=
  { method := "get", url := url, params := params, data := .undefined }

/-- The call `client.post(url, data)`. -/
def httpPost (url : List UrlPiece) (data : JSValue) : ApiCall :=
  { method := "post", url := url, params := .undefined, data := data }

/-- The call `client.put(url, data)`. -/
def httpPut (url : List UrlPiece) (data : JSValue) : ApiCall :=
  { method := "put", url := url, params := .undefined, data := data }

/-- The call `client.delete(url)`. -/
def httpDelete (url : List UrlPiece) : ApiCall :=
  { method := "delete", url := url, params := .undefined, data := .undefined }

/-- The methods of the legacy objects `authAPI`, `articlesAPI`, `contactsAPI`,
`newsletterAPI`, `reviewsAPI`, `analyticsAPI`, `dashboardAPI` and `healthAPI`, which
both modules export under the same names. -/
inductive LegacyMethod where
  | authAPI_login | authAPI_register | authAPI_getCurrentUser | authAPI_logout
  | articlesAPI_getArticles | articlesAPI_getArticle | articlesAPI_createArticle
  | articlesAPI_updateArticle | articlesAPI_deleteArticle | articlesAPI_getCategories
  | articlesAPI_getTags
  | contactsAPI_getContacts | contactsAPI_getContact | contactsAPI_updateContactStatus
  | contactsAPI_deleteContact | contactsAPI_getContactStats
  | newsletterAPI_getSubscribers | newsletterAPI_getSubscriber
  | newsletterAPI_updateSubscriberStatus | newsletterAPI_deleteSubscriber
  | newsletterAPI_getNewsletterStats | newsletterAPI_exportSubscribers
  | reviewsAPI_getReviews | reviewsAPI_getReview | reviewsAPI_updateReviewStatus
  | reviewsAPI_deleteReview | reviewsAPI_getReviewStats | reviewsAPI_getApprovedReviews
  | analyticsAPI_getOverview | analyticsAPI_getEvents | analyticsAPI_getChartData
  | dashboardAPI_getStats | dashboardAPI_getQuickActions
  | dashboardAPI_getPerformanceMetrics
  | healthAPI_check
  deriving DecidableEq

/-- The API objects of the original module `lib/api.js` (lines 43-108): the request each
method issues for an argument list. -/
def originalAPI (m : LegacyMethod) (args : List JSValue) : ApiCall :=
  match m with
  | .authAPI_login => httpPost [.text "/auth/login"] (argAt args 0)
  | .authAPI_register => httpPost [.text "/auth/register"] (argAt args 0)
  | .authAPI_getCurrentUser => httpGet [.text "/auth/me"]
  | .authAPI_logout => httpPost [.text "/auth/logout"] .undefined
  | .articlesAPI_getArticles => httpGetParams [.text "/articles"] (argAt args 0)
  | .articlesAPI_getArticle => httpGet [.text "/articles/", .value (argAt args 0)]
  | .articlesAPI_createArticle => httpPost [.text "/articles"] (argAt args 0)
  | .articlesAPI_updateArticle =>
    httpPut [.text "/articles/", .value (argAt args 0)] (argAt args 1)
  | .articlesAPI_deleteArticle => httpDelete [.text "/articles/", .value (argAt args 0)]
  | .articlesAPI_getCategories => httpGet [.text "/articles/categories"]
  | .articlesAPI_getTags => httpGet [.text "/articles/tags"]
  | .contactsAPI_getContacts => httpGetParams [.text "/contacts"] (argAt args 0)
  | .contactsAPI_getContact => httpGet [.text "/contacts/", .value (argAt args 0)]
  | .contactsAPI_updateContactStatus =>
    httpPut [.text "/contacts/", .value (argAt args 0), .text "/status"]
      (.obj [("status", argAt args 1)])
  | .contactsAPI_deleteContact => httpDelete [.text "/contacts/", .value (argAt args 0)]
  | .contactsAPI_getContactStats => httpGet [.text "/contacts/stats"]
  | .newsletterAPI_getSubscribers =>
    httpGetParams [.text "/newsletter/subscribers"] (argAt args 0)
  | .newsletterAPI_getSubscriber =>
    httpGet [.text "/newsletter/subscribers/", .value (argAt args 0)]
  | .newsletterAPI_updateSubscriberStatus =>
    httpPut [.text "/newsletter/subscribers/", .value (argAt args 0), .text "/status"]
      (.obj [("status", argAt args 1)])
  | .newsletterAPI_deleteSubscriber =>
    httpDelete [.text "/newsletter/subscribers/", .value (argAt args 0)]
  | .newsletterAPI_getNewsletterStats => httpGet [.text "/newsletter/stats"]
  | .newsletterAPI_exportSubscribers => httpGet [.text "/newsletter/export"]
  | .reviewsAPI_getReviews => httpGetParams [.text "/reviews"] (argAt args 0)
  | .reviewsAPI_getReview => httpGet [.text "/reviews/", .value (argAt args 0)]
  | .reviewsAPI_updateReviewStatus =>
    httpPut [.text "/reviews/", .value (argAt args 0), .text "/status"]
      (.obj [("status", argAt args 1)])
  | .reviewsAPI_deleteReview => httpDelete [.text "/reviews/", .value (argAt args 0)]
  | .reviewsAPI_getReviewStats => httpGet [.text "/reviews/stats"]
  | .reviewsAPI_getApprovedReviews =>
    httpGetParams [.text "/reviews/approved"] (argAt args 0)
  | .analyticsAPI_getOverview => httpGet [.text "/analytics/overview"]
  | .analyticsAPI_getEvents => httpGetParams [.text "/analytics/events"] (argAt args 0)
  | .analyticsAPI_getChartData =>
    httpGetParams [.text "/analytics/chart-data"] (argAt args 0)
  | .dashboardAPI_getStats => httpGet [.text "/dashboard/stats"]
  | .dashboardAPI_getQuickActions => httpGet [.text "/dashboard/quick-actions"]
  | .dashboardAPI_getPerformanceMetrics =>
    httpGetParams [.text "/dashboard/performance"] (argAt args 0)
  | .healthAPI_check => httpGet [.text "/health"]

/-- The methods of the object `api` of the unified module `lib/0/api.js`. -/
inductive ApiMethod where
  | login | register | getCurrentUser | logout
  | getArticles | getArticle | createArticle | updateArticle | deleteArticle
  | getArticleCategories | getArticleTags
  | getArticleSEO | updateArticleSEO | analyzeArticleSEO
  | getContacts | getContact | updateContactStatus | deleteContact | getContactStats
  | getSubscribers | getSubscriber | updateSubscriberStatus | deleteSubscriber
  | getNewsletterStats | exportSubscribers | sendNewsletter | createCampaign | getCampaigns
  | getReviews | getReview | updateReviewStatus | deleteReview | getReviewStats
  | getApprovedReviews
  | getAnalyticsOverview | getAnalyticsEvents | getAnalyticsChartData
  | getDashboardStats | getQuickActions | getPerformanceMetrics
  | getSettings | updateSettings | getSettingsCategory | updateSettingsCategory
  | healthCheck
  deriving DecidableEq

/-- The object `api` of the unified module `lib/0/api.js` (lines 44-110): the request
each method issues for an argument list. -/
def api (m : ApiMethod) (args : List JSValue) : ApiCall :=
  match m with
  | .login => httpPost [.text "/auth/login"] (argAt args 0)
  | .register => httpPost [.text "/auth/register"] (argAt args 0)
  | .getCurrentUser => httpGet [.text "/auth/me"]
  | .logout => httpPost [.text "/auth/logout"] .undefined
  | .getArticles => httpGetParams [.text "/articles"] (argAt args 0)
  | .getArticle => httpGet [.text "/articles/", .value (argAt args 0)]
  | .createArticle => httpPost [.text "/articles"] (argAt args 0)
  | .updateArticle => httpPut [.text "/articles/", .value (argAt args 0)] (argAt args 1)
  | .deleteArticle => httpDelete [.text "/articles/", .value (argAt args 0)]
  | .getArticleCategories => httpGet [.text "/articles/categories"]
  | .getArticleTags => httpGet [.text "/articles/tags"]
  | .getArticleSEO => httpGet [.text "/articles/", .value (argAt args 0), .text "/seo"]
  | .updateArticleSEO =>
    httpPut [.text "/articles/", .value (argAt args 0), .text "/seo"] (argAt args 1)
  | .analyzeArticleSEO =>
    httpPost [.text "/articles/", .value (argAt args 0), .text "/seo/analyze"] .undefined
  | .getContacts => httpGetParams [.text "/contacts"] (argAt args 0)
  | .getContact => httpGet [.text "/contacts/", .value (argAt args 0)]
  | .updateContactStatus =>
    httpPut [.text "/contacts/", .value (argAt args 0), .text "/status"]
      (.obj [("status", argAt args 1)])
  | .deleteContact => httpDelete [.text "/contacts/", .value (argAt args 0)]
  | .getContactStats => httpGet [.text "/contacts/stats"]
  | .getSubscribers => httpGetParams [.text "/newsletter/subscribers"] (argAt args 0)
  | .getSubscriber => httpGet [.text "/newsletter/subscribers/", .value (argAt args 0)]
  | .updateSubscriberStatus =>
    httpPut [.text "/newsletter/subscribers/", .value (argAt args 0), .text "/status"]
      (.obj [("status", argAt args 1)])
  | .deleteSubscriber =>
    httpDelete [.text "/newsletter/subscribers/", .value (argAt args 0)]
  | .getNewsletterStats => httpGet [.text "/newsletter/stats"]
  | .exportSubscribers => httpGet [.text "/newsletter/export"]
  | .sendNewsletter => httpPost [.text "/newsletter/send"] (argAt args 0)
  | .createCampaign => httpPost [.text "/newsletter/campaigns"] (argAt args 0)
  | .getCampaigns => httpGetParams [.text "/newsletter/campaigns"] (argAt args 0)
  | .getReviews => httpGetParams [.text "/reviews"] (argAt args 0)
  | .getReview => httpGet [.text "/reviews/", .value (argAt args 0)]
  | .updateReviewStatus =>
    httpPut [.text "/reviews/", .value (argAt args 0), .text "/status"]
      (.obj [("status", argAt args 1)])
  | .deleteReview => httpDelete [.text "/reviews/", .value (argAt args 0)]
  | .getReviewStats => httpGet [.text "/reviews/stats"]
  | .getApprovedReviews => httpGetParams [.text "/reviews/approved"] (argAt args 0)
  | .getAnalyticsOverview => httpGet [.text "/analytics/overview"]
  | .getAnalyticsEvents => httpGetParams [.text "/analytics/events"] (argAt args 0)
  | .getAnalyticsChartData =>
    httpGetParams [.text "/analytics/chart-data"]
      (.obj [("type", argAt args 0), ("date_range", argAt args 1)])
  | .getDashboardStats => httpGet [.text "/dashboard/stats"]
  | .getQuickActions => httpGet [.text "/dashboard/quick-actions"]
  | .getPerformanceMetrics => httpGetParams [.text "/dashboard/performance"] (argAt args 0)
  | .getSettings => httpGet [.text "/settings"]
  | .updateSettings => httpPut [.text "/settings"] (argAt args 0)
  | .getSettingsCategory => httpGet [.text "/settings/", .value (argAt args 0)]
  | .updateSettingsCategory =>
    httpPut [.text "/settings/", .value (argAt args 0)] (argAt args 1)
  | .healthCheck => httpGet [.text "/health"]

/-- The legacy objects of the unified module (lines 113-171): the method of `api` each
legacy method is bound to. -/
def legacyBinding : LegacyMethod → ApiMethod
  | .authAPI_login => .login
  | .authAPI_register => .register
  | .authAPI_getCurrentUser => .getCurrentUser
  | .authAPI_logout => .logout
  | .articlesAPI_getArticles => .getArticles
  | .articlesAPI_getArticle => .getArticle
  | .articlesAPI_createArticle => .createArticle
  | .articlesAPI_updateArticle => .updateArticle
  | .articlesAPI_deleteArticle => .deleteArticle
  | .articlesAPI_getCategories => .getArticleCategories
  | .articlesAPI_getTags => .getArticleTags
  | .contactsAPI_getContacts => .getContacts
  | .contactsAPI_getContact => .getContact
  | .contactsAPI_updateContactStatus => .updateContactStatus
  | .contactsAPI_deleteContact => .deleteContact
  | .contactsAPI_getContactStats => .getContactStats
  | .newsletterAPI_getSubscribers => .getSubscribers
  | .newsletterAPI_getSubscriber => .getSubscriber
  | .newsletterAPI_updateSubscriberStatus => .updateSubscriberStatus
  | .newsletterAPI_deleteSubscriber => .deleteSubscriber
  | .newsletterAPI_getNewsletterStats => .getNewsletterStats
  | .newsletterAPI_exportSubscribers => .exportSubscribers
  | .reviewsAPI_getReviews => .getReviews
  | .reviewsAPI_getReview => .getReview
  | .reviewsAPI_updateReviewStatus => .updateReviewStatus
  | .reviewsAPI_deleteReview => .deleteReview
  | .reviewsAPI_getReviewStats => .getReviewStats
  | .reviewsAPI_getApprovedReviews => .getApprovedReviews
  | .analyticsAPI_getOverview => .getAnalyticsOverview
  | .analyticsAPI_getEvents => .getAnalyticsEvents
  | .analyticsAPI_getChartData => .getAnalyticsChartData
  | .dashboardAPI_getStats => .getDashboardStats
  | .dashboardAPI_getQuickActions => .getQuickActions
  | .dashboardAPI_getPerformanceMetrics => .getPerformanceMetrics
  | .healthAPI_check => .healthCheck

/-- The request a legacy method of the unified module issues for an argument list. -/
def legacyAPI (m : LegacyMethod) (args : List JSValue) : ApiCall :=
  api (legacyBinding m) args

/-! ## Order of first occurrence -/

/-- The position of the first occurrence of `s` in a list of strings (the length of the
list when `s` does not occur).  This is not a function of the source; it states the
order that `[...new Set(xs)]` keeps. -/
def firstIndex (s : JSString) : List JSString → Nat
  | [] => 0
  | t :: ts => if t = s then 0 else firstIndex s ts + 1

/-! ## `ArticleEditor.jsx`: tags and SEO keywords of the article form -/

/-- The part of the state of `ArticleEditor` that the tag and keyword handlers read and
write: the fields `tags` and `seo_keywords` of `formData` and the two inputs `newTag`
and `newSEOKeyword`.  A handler runs on the state of the last render. -/
structure EditorState where
  tags : List JSString
  seo_keywords : List JSString
  newTag : JSString
  newSEOKeyword : JSString
  deriving DecidableEq

/-- The method `Array.prototype.includes` on an array of strings. -/
def arrayIncludes (xs : List JSString) (x : JSString) : Bool := decide (x ∈ xs)

/-- The handler `handleAddTag` (lines 106-114). -/
def handleAddTag (st : EditorState) : EditorState :=
  if trim st.newTag ≠ [] ∧ !arrayIncludes st.tags (trim st.newTag) then
    { st with tags := st.tags ++ [trim st.newTag], newTag := [] }
  else st

/-- The handler `handleRemoveTag` (lines 116-121). -/
def handleRemoveTag (tagToRemove : JSString) (st : EditorState) : EditorState :=
  { st with tags := st.tags.filter (fun tag => decide (tag ≠ tagToRemove)) }

/-- The handler `handleAddSEOKeyword` (lines 123-131). -/
def handleAddSEOKeyword (st : EditorState) : EditorState :=
  if trim st.newSEOKeyword ≠ [] ∧ !arrayIncludes st.seo_keywords (trim st.newSEOKeyword) then
    { st with
      seo_keywords := st.seo_keywords ++ [trim st.newSEOKeyword], newSEOKeyword := [] }
  else st

/-- The handler `handleRemoveSEOKeyword` (lines 133-138). -/
def handleRemoveSEOKeyword (keywordToRemove : JSString) (st : EditorState) : EditorState :=
  { st with
    seo_keywords := st.seo_keywords.filter (fun keyword => decide (keyword ≠ keywordToRemove)) }

/-- What the user can do with the tag and keyword controls of the form: type into one of
the two inputs (`setNewTag`, `setNewSEOKeyword`) or trigger one of the four handlers. -/
inductive EditorAction where
  | setNewTag (value : JSString)
  | handleAddTag
  | handleRemoveTag (tagToRemove : JSString)
  | setNewSEOKeyword (value : JSString)
  | handleAddSEOKeyword
  | handleRemoveSEOKeyword (keywordToRemove : JSString)
  deriving DecidableEq

/-- The state after one action. -/
def EditorAction.apply (st : EditorState) : EditorAction → EditorState
  | .setNewTag value => { st with newTag := value }
  | .handleAddTag => AdminConsole.handleAddTag st
  | .handleRemoveTag t => AdminConsole.handleRemoveTag t st
  | .setNewSEOKeyword value => { st with newSEOKeyword := value }
  | .handleAddSEOKeyword => AdminConsole.handleAddSEOKeyword st
  | .handleRemoveSEOKeyword k => AdminConsole.handleRemoveSEOKeyword k st

/-- The state after a sequence of actions, each followed by a render. -/
def runActions (st : EditorState) (actions : List EditorAction) : EditorState :=
  actions.foldl EditorAction.apply st

/-! ## Rounding -/

theorem mathRound_le (x : ℚ) : (mathRound x : ℚ) ≤ x + 1 / 2 := by
  unfold mathRound
  exact Int.floor_le _

theorem lt_mathRound_add_one (x : ℚ) : x + 1 / 2 < (mathRound x : ℚ) + 1 := by
  unfold mathRound
  exact Int.lt_floor_add_one _

theorem mathRound_intCast (n : ℤ) : mathRound (n : ℚ) = n := by
  unfold mathRound
  rw [Int.floor_eq_iff]
  constructor <;> norm_num

theorem mathRound_bounds {x : ℚ} (h0 : 0 ≤ x) (h1 : x ≤ 100) :
    0 ≤ mathRound x ∧ mathRound x ≤ 100 := by
  have hle := mathRound_le x
  have hlt := lt_mathRound_add_one x
  constructor
  · have h : (-1 : ℚ) < (mathRound x : ℚ) := by linarith
    have h2 : (-1 : ℤ) < mathRound x := by exact_mod_cast h
    omega
  · have h : (mathRound x : ℚ) < 101 := by linarith
    have h2 : mathRound x < (101 : ℤ) := by exact_mod_cast h
    omega

/-- Rounding a quotient of an integer by a positive natural number, in integer
arithmetic. -/
theorem mathRound_div (a : ℤ) (b : ℕ) (hb : 0 < b) :
    mathRound ((a : ℚ) / (b : ℚ)) = (2 * a + b) / ((2 * b : ℕ) : ℤ) := by
  unfold mathRound
  have hbq : (0 : ℚ) < (b : ℚ) := by exact_mod_cast hb
  have h : (a : ℚ) / (b : ℚ) + 1 / 2 = ((2 * a + b : ℤ) : ℚ) / ((2 * b : ℕ) : ℚ) := by
    push_cast
    field_simp
    ring
  rw [h]
  exact Rat.floor_intCast_div_natCast _ _

/-! ## Scores of the six factors -/

section AnalyzerFacts

variable (lc : JSString → JSString)

theorem titleLengthCheck_score (t : JSString) (a : Acc) :
    a.score + 20 ≤ (titleLengthCheck t a).score ∧
      (titleLengthCheck t a).score ≤ a.score + 100 := by
  unfold titleLengthCheck
  split_ifs <;> simp

theorem titleKeywordPresence_score (t : JSString) (k : JSArg) (a : Acc) :
    a.score ≤ (titleKeywordPresence lc t k a).score ∧
      (titleKeywordPresence lc t k a).score ≤ a.score + 100 := by
  unfold titleKeywordPresence
  split_ifs <;> simp

theorem titleKeywordPosition_score (t : JSString) (k : JSArg) (a : Acc) :
    a.score ≤ (titleKeywordPosition lc t k a).score ∧
      (titleKeywordPosition lc t k a).score ≤ a.score + 50 := by
  unfold titleKeywordPosition
  split_ifs <;> simp

theorem analyzeTitleTag_score_bounds (t k : JSArg) :
    0 ≤ (analyzeTitleTag lc t k).score ∧ (analyzeTitleTag lc t k).score ≤ 100 := by
  by_cases ht : t.truthy = true
  · have h1 := titleLengthCheck_score t.toStr Acc.init
    have h2 := titleKeywordPresence_score lc t.toStr k (titleLengthCheck t.toStr Acc.init)
    have h3 := titleKeywordPosition_score lc t.toStr k
      (titleKeywordPresence lc t.toStr k (titleLengthCheck t.toStr Acc.init))
    have h0 : Acc.init.score = 0 := rfl
    simp only [analyzeTitleTag, ht, Bool.not_true, Bool.false_eq_true, if_false]
    generalize (titleKeywordPosition lc t.toStr k
      (titleKeywordPresence lc t.toStr k (titleLengthCheck t.toStr Acc.init))).score = n at h3 ⊢
    have hn0 : (0 : ℤ) ≤ n := by omega
    have hn1 : n ≤ (250 : ℤ) := by omega
    have hq0 : (0 : ℚ) ≤ (n : ℚ) := by exact_mod_cast hn0
    have hq1 : (n : ℚ) ≤ 250 := by exact_mod_cast hn1
    apply mathRound_bounds
    · exact div_nonneg hq0 (by norm_num)
    · rw [div_le_iff₀ (by norm_num)]
      linarith
  · simp [analyzeTitleTag, ht]

theorem metaLengthCheck_score (m : JSString) (a : Acc) :
    a.score + 60 ≤ (metaLengthCheck m a).score ∧
      (metaLengthCheck m a).score ≤ a.score + 100 := by
  unfold metaLengthCheck
  split_ifs <;> simp

theorem metaKeywordPresence_score (m : JSString) (k : JSArg) (a : Acc) :
    a.score ≤ (metaKeywordPresence lc m k a).score ∧
      (metaKeywordPresence lc m k a).score ≤ a.score + 100 := by
  unfold metaKeywordPresence
  split_ifs <;> simp

theorem analyzeMetaDescription_score_bounds (m k : JSArg) :
    0 ≤ (analyzeMetaDescription lc m k).score ∧
      (analyzeMetaDescription lc m k).score ≤ 100 := by
  by_cases hm : m.truthy = true
  · have h1 := metaLengthCheck_score m.toStr Acc.init
    have h2 := metaKeywordPresence_score lc m.toStr k (metaLengthCheck m.toStr Acc.init)
    have h0 : Acc.init.score = 0 := rfl
    simp only [analyzeMetaDescription, hm, Bool.not_true, Bool.false_eq_true, if_false]
    generalize (metaKeywordPresence lc m.toStr k (metaLengthCheck m.toStr Acc.init)).score = n
      at h2 ⊢
    have hn0 : (0 : ℤ) ≤ n := by omega
    have hn1 : n ≤ (200 : ℤ) := by omega
    have hq0 : (0 : ℚ) ≤ (n : ℚ) := by exact_mod_cast hn0
    have hq1 : (n : ℚ) ≤ 200 := by exact_mod_cast hn1
    apply mathRound_bounds
    · exact div_nonneg hq0 (by norm_num)
    · rw [div_le_iff₀ (by norm_num)]
      linarith
  · simp [analyzeMetaDescription, hm]

theorem contentLengthCheck_score (wc : Nat) :
    0 ≤ (contentLengthCheck wc).score ∧ (contentLengthCheck wc).score ≤ 100 := by
  unfold contentLengthCheck
  split_ifs <;> simp

theorem keywordUsageCheck_score (d : ℚ) (k : JSString) :
    0 ≤ (keywordUsageCheck d k).score ∧ (keywordUsageCheck d k).score ≤ 100 := by
  unfold keywordUsageCheck
  split_ifs <;> simp

theorem analyzeKeywordUsage_score_bounds (c k : JSArg) :
    0 ≤ (analyzeKeywordUsage lc c k).score ∧ (analyzeKeywordUsage lc c k).score ≤ 100 := by
  unfold analyzeKeywordUsage
  split_ifs
  · simp
  · exact keywordUsageCheck_score _ _

theorem headingCountCheck_score (n : Nat) :
    0 ≤ (headingCountCheck n).score ∧ (headingCountCheck n).score ≤ 100 := by
  unfold headingCountCheck
  split_ifs <;> simp

theorem linkCountCheck_score (n : Nat) :
    0 ≤ (linkCountCheck n).score ∧ (linkCountCheck n).score ≤ 100 := by
  unfold linkCountCheck
  split_ifs <;> simp

/-- The six factors of an analysis of the string content `c`, in the order in which
`performSEOAnalysis` pushes them. -/
theorem performSEOAnalysis_str (c : JSString) (t m k : JSArg) :
    ∃ a, performSEOAnalysis lc (.str c) t m k = .ok a ∧
      a.factors = [analyzeTitleTag lc t k, analyzeMetaDescription lc m k,
        contentLengthFactor (.str c), analyzeKeywordUsage lc (.str c) k,
        headingStructureOf c, linkStructureOf c] ∧
      a.overallScore = mathRound
        ((((analyzeTitleTag lc t k).score + (analyzeMetaDescription lc m k).score +
          (contentLengthFactor (.str c)).score + (analyzeKeywordUsage lc (.str c) k).score +
          (headingStructureOf c).score + (linkStructureOf c).score : ℤ) : ℚ) / 6) ∧
      a.readabilityScore = analyzeReadability (.str c) := by
  refine ⟨_, rfl, rfl, ?_, rfl⟩
  show mathRound _ = mathRound _
  congr 1
  simp only [List.length_cons, List.length_nil]
  push_cast
  ring

theorem analyzeTitleTag_name (t k : JSArg) : (analyzeTitleTag lc t k).name = "Title Tag" := by
  unfold analyzeTitleTag
  split_ifs <;> rfl

theorem analyzeMetaDescription_name (m k : JSArg) :
    (analyzeMetaDescription lc m k).name = "Meta Description" := by
  unfold analyzeMetaDescription
  split_ifs <;> rfl

theorem analyzeKeywordUsage_name (c k : JSArg) :
    (analyzeKeywordUsage lc c k).name = "Keyword Usage" := by
  unfold analyzeKeywordUsage
  split_ifs <;> rfl

/-- The sum of the six factor scores of an analysis lies between `0` and `600`. -/
theorem factor_scores_sum_bounds (c : JSString) (t m k : JSArg) :
    0 ≤ (analyzeTitleTag lc t k).score + (analyzeMetaDescription lc m k).score +
        (contentLengthFactor (.str c)).score + (analyzeKeywordUsage lc (.str c) k).score +
        (headingStructureOf c).score + (linkStructureOf c).score ∧
      (analyzeTitleTag lc t k).score + (analyzeMetaDescription lc m k).score +
        (contentLengthFactor (.str c)).score + (analyzeKeywordUsage lc (.str c) k).score +
        (headingStructureOf c).score + (linkStructureOf c).score ≤ 600 := by
  have h1 := analyzeTitleTag_score_bounds lc t k
  have h2 := analyzeMetaDescription_score_bounds lc m k
  have h3 : 0 ≤ (contentLengthFactor (.str c)).score ∧
      (contentLengthFactor (.str c)).score ≤ 100 := contentLengthCheck_score _
  have h4 := analyzeKeywordUsage_score_bounds lc (.str c) k
  have h5 : 0 ≤ (headingStructureOf c).score ∧ (headingStructureOf c).score ≤ 100 :=
    headingCountCheck_score _
  have h6 : 0 ≤ (linkStructureOf c).score ∧ (linkStructureOf c).score ≤ 100 :=
    linkCountCheck_score _
  omega

theorem splitRunsGo_ne_nil (p : Char → Bool) (s : JSString) :
    ∀ (inSep : Bool) (cur : JSString), splitRunsGo p inSep cur s ≠ [] := by
  induction s with
  | nil => intro inSep cur; simp [splitRunsGo]
  | cons x xs ih =>
    intro inSep cur
    unfold splitRunsGo
    split_ifs
    · exact ih _ _
    · exact List.cons_ne_nil _ _
    · exact ih _ _

theorem splitWhitespace_length_pos (s : JSString) : 0 < (splitWhitespace s).length :=
  List.length_pos.mpr (splitRunsGo_ne_nil _ _ _ _)

theorem wordCount_eq_zero_iff (c : JSString) : wordCount (.str c) = 0 ↔ c = [] := by
  cases c with
  | nil => simp [wordCount, JSArg.truthy]
  | cons x xs =>
    have h := splitWhitespace_length_pos (x :: xs)
    simp only [wordCount, JSArg.truthy, JSArg.toStr, if_true]
    constructor
    · intro h0; omega
    · intro h0; exact absurd h0 (List.cons_ne_nil _ _)

/-- The keyword factor of a non-empty content and a non-empty keyword is decided by the
density. -/
theorem analyzeKeywordUsage_score_of_nonempty (x : Char) (xs : JSString) (y : Char)
    (ys : JSString) :
    (analyzeKeywordUsage lc (.str (x :: xs)) (.str (y :: ys))).score =
      (keywordUsageCheck (keywordDensityOf lc (x :: xs) (y :: ys)) (y :: ys)).score := rfl

theorem keywordUsageCheck_score_congr (d : ℚ) (k k' : JSString) :
    (keywordUsageCheck d k).score = (keywordUsageCheck d k').score := by
  unfold keywordUsageCheck
  split_ifs <;> rfl

/-- The four content factors have the same scores for two contents that agree on word
count, keyword density, number of headings and number of links. -/
theorem content_scores_congr (k c₁ c₂ : JSString)
    (hw : wordCount (.str c₁) = wordCount (.str c₂))
    (hd : keywordDensityOf lc c₁ k = keywordDensityOf lc c₂ k)
    (hh : countMatches matchHeading c₁ = countMatches matchHeading c₂)
    (hl : countMatches matchLink c₁ = countMatches matchLink c₂) :
    (contentLengthFactor (.str c₁)).score = (contentLengthFactor (.str c₂)).score ∧
      (analyzeKeywordUsage lc (.str c₁) (.str k)).score =
        (analyzeKeywordUsage lc (.str c₂) (.str k)).score ∧
      (headingStructureOf c₁).score = (headingStructureOf c₂).score ∧
      (linkStructureOf c₁).score = (linkStructureOf c₂).score := by
  refine ⟨?_, ?_, ?_, ?_⟩
  · simp only [contentLengthFactor, hw]
  · cases k with
    | nil => rfl
    | cons y ys =>
      cases c₁ with
      | nil =>
        have h2 : c₂ = [] := (wordCount_eq_zero_iff c₂).mp (by rw [← hw]; rfl)
        rw [h2]
      | cons x xs =>
        cases c₂ with
        | nil =>
          have h1 := (wordCount_eq_zero_iff (x :: xs)).mp (by rw [hw]; rfl)
          exact absurd h1 (List.cons_ne_nil _ _)
        | cons x' xs' =>
          rw [analyzeKeywordUsage_score_of_nonempty, analyzeKeywordUsage_score_of_nonempty, hd]
  · simp only [headingStructureOf, hh]
  · simp only [linkStructureOf, hl]

end AnalyzerFacts

/-! ## Claims about `performSEOAnalysis` -/

/-- C1. For every content, title, meta description and target keyword given as strings
(empty ones included), `performSEOAnalysis` returns an analysis whose `overallScore` is
an integer between 0 and 100 inclusive. -/
theorem overallScore_between_0_and_100 (lc : JSString → JSString)
    (content title metaDescription targetKeyword : JSString) :
    ∃ a, performSEOAnalysis lc (.str content) (.str title) (.str metaDescription)
          (.str targetKeyword) = .ok a ∧
      0 ≤ a.overallScore ∧ a.overallScore ≤ 100 := by
  obtain ⟨a, ha, -, ho, -⟩ :=
    performSEOAnalysis_str lc content (.str title) (.str metaDescription) (.str targetKeyword)
  refine ⟨a, ha, ?_⟩
  have hs := factor_scores_sum_bounds lc content (.str title) (.str metaDescription)
    (.str targetKeyword)
  rw [ho]
  generalize (analyzeTitleTag lc (.str title) (.str targetKeyword)).score +
    (analyzeMetaDescription lc (.str metaDescription) (.str targetKeyword)).score +
    (contentLengthFactor (.str content)).score +
    (analyzeKeywordUsage lc (.str content) (.str targetKeyword)).score +
    (headingStructureOf content).score + (linkStructureOf content).score = n at hs ⊢
  have hq0 : (0 : ℚ) ≤ (n : ℚ) := by exact_mod_cast hs.1
  have hq1 : (n : ℚ) ≤ 600 := by exact_mod_cast hs.2
  apply mathRound_bounds
  · exact div_nonneg hq0 (by norm_num)
  · rw [div_le_iff₀ (by norm_num)]
    linarith

/-- C3. `performSEOAnalysis` returns an analysis exactly when the content is a string
(the empty string included) and raises exactly when the content is `undefined` or
`null`, whatever the title, meta description and target keyword are (present or
absent); the error is the one of `content.match`, although the word count of an absent
content is guarded and is `0`. -/
theorem performSEOAnalysis_raises_iff_content_absent (lc : JSString → JSString)
    (content title metaDescription targetKeyword : JSArg) :
    ((∃ a, performSEOAnalysis lc content title metaDescription targetKeyword = .ok a) ↔
        ∃ s, content = .str s) ∧
      ((∃ e, performSEOAnalysis lc content title metaDescription targetKeyword = .error e) ↔
        (content = .undefined ∨ content = .null)) ∧
      performSEOAnalysis lc .undefined title metaDescription targetKeyword =
        .error (.typeError "content.match: content is undefined or null") ∧
      performSEOAnalysis lc .null title metaDescription targetKeyword =
        .error (.typeError "content.match: content is undefined or null") ∧
      wordCount .undefined = 0 ∧ wordCount .null = 0 := by
  refine ⟨?_, ?_, rfl, rfl, rfl, rfl⟩
  · cases content with
    | undefined =>
      constructor
      · rintro ⟨a, ha⟩; exact absurd ha (by intro h; cases h)
      · rintro ⟨s, hs⟩; cases hs
    | null =>
      constructor
      · rintro ⟨a, ha⟩; exact absurd ha (by intro h; cases h)
      · rintro ⟨s, hs⟩; cases hs
    | str s =>
      obtain ⟨a, ha, -⟩ := performSEOAnalysis_str lc s title metaDescription targetKeyword
      exact ⟨fun _ => ⟨s, rfl⟩, fun _ => ⟨a, ha⟩⟩
  · cases content with
    | undefined => exact ⟨fun _ => Or.inl rfl, fun _ => ⟨_, rfl⟩⟩
    | null => exact ⟨fun _ => Or.inr rfl, fun _ => ⟨_, rfl⟩⟩
    | str s =>
      obtain ⟨a, ha, -⟩ := performSEOAnalysis_str lc s title metaDescription targetKeyword
      constructor
      · rintro ⟨e, he⟩
        rw [ha] at he
        cases he
      · rintro (h | h) <;> cases h

/-- C10. For every string content, title, meta description and target keyword,
`performSEOAnalysis` returns exactly six factors, named Title Tag, Meta Description,
Content Length, Keyword Usage, Heading Structure, Link Structure in this order, and
`overallScore` is the sum of the six factor scores divided by 6, rounded to the nearest
integer with halves rounded up: `sum/6 - 1/2 < overallScore ≤ sum/6 + 1/2`. -/
theorem performSEOAnalysis_six_factors_and_mean (lc : JSString → JSString)
    (content title metaDescription targetKeyword : JSString) :
    ∃ a, performSEOAnalysis lc (.str content) (.str title) (.str metaDescription)
          (.str targetKeyword) = .ok a ∧
      a.factors.length = 6 ∧
      a.factors.map (fun f => f.name) =
        ["Title Tag", "Meta Description", "Content Length", "Keyword Usage",
         "Heading Structure", "Link Structure"] ∧
      a.overallScore = mathRound ((((a.factors.map (fun f => f.score)).sum : ℤ) : ℚ) / 6) ∧
      6 * a.overallScore ≤ (a.factors.map (fun f => f.score)).sum + 3 ∧
      (a.factors.map (fun f => f.score)).sum + 3 < 6 * a.overallScore + 6 := by
  obtain ⟨a, ha, hf, ho, -⟩ :=
    performSEOAnalysis_str lc content (.str title) (.str metaDescription) (.str targetKeyword)
  have hsum : (a.factors.map (fun f => f.score)).sum =
      (analyzeTitleTag lc (.str title) (.str targetKeyword)).score +
      (analyzeMetaDescription lc (.str metaDescription) (.str targetKeyword)).score +
      (contentLengthFactor (.str content)).score +
      (analyzeKeywordUsage lc (.str content) (.str targetKeyword)).score +
      (headingStructureOf content).score + (linkStructureOf content).score := by
    rw [hf]
    simp only [List.map_cons, List.map_nil, List.sum_cons, List.sum_nil]
    ring
  have ho' : a.overallScore =
      mathRound ((((a.factors.map (fun f => f.score)).sum : ℤ) : ℚ) / 6) := by
    rw [ho, hsum]
  refine ⟨a, ha, ?_, ?_, ho', ?_, ?_⟩
  · rw [hf]; rfl
  · rw [hf]
    simp only [List.map_cons, List.map_nil, analyzeTitleTag_name, analyzeMetaDescription_name,
      analyzeKeywordUsage_name]
    rfl
  · have h := mathRound_le ((((a.factors.map (fun f => f.score)).sum : ℤ) : ℚ) / 6)
    rw [← ho'] at h
    have h2 : (6 * a.overallScore : ℚ) ≤ ((a.factors.map (fun f => f.score)).sum : ℤ) + 3 := by
      linarith
    exact_mod_cast h2
  · have h := lt_mathRound_add_one ((((a.factors.map (fun f => f.score)).sum : ℤ) : ℚ) / 6)
    rw [← ho'] at h
    have h2 : (((a.factors.map (fun f => f.score)).sum : ℤ) : ℚ) + 3 <
        6 * a.overallScore + 6 := by
      linarith
    exact_mod_cast h2

/-- C2, counterexample. The contents "a b" and "# b" both have two words and target
keyword density 50 for the keyword "b", yet with empty title and meta description the
first gets `overallScore` 22 and the second 30: the heading check tells them apart. -/
theorem overallScore_differs_at_equal_count_and_density :
    wordCount (.str "a b".toList) = wordCount (.str "# b".toList) ∧
      keywordDensityOf asciiLower "a b".toList "b".toList =
        keywordDensityOf asciiLower "# b".toList "b".toList ∧
      Except.map (fun a => a.overallScore)
          (performSEOAnalysis asciiLower (.str "a b".toList) (.str []) (.str [])
            (.str "b".toList)) = .ok 22 ∧
      Except.map (fun a => a.overallScore)
          (performSEOAnalysis asciiLower (.str "# b".toList) (.str []) (.str [])
            (.str "b".toList)) = .ok 30 := by
  have hd1 : keywordDensityOf asciiLower "a b".toList "b".toList = 50 := by
    have h1 : keywordCount asciiLower "a b".toList "b".toList = 1 := by decide
    have h2 : (splitWhitespace (asciiLower "a b".toList)).length = 2 := by decide
    simp only [keywordDensityOf, h1, h2]
    norm_num
  have hd2 : keywordDensityOf asciiLower "# b".toList "b".toList = 50 := by
    have h1 : keywordCount asciiLower "# b".toList "b".toList = 1 := by decide
    have h2 : (splitWhitespace (asciiLower "# b".toList)).length = 2 := by decide
    simp only [keywordDensityOf, h1, h2]
    norm_num
  have hc : ∀ k : JSString, (keywordUsageCheck 50 k).score = 50 := by
    intro k
    norm_num [keywordUsageCheck]
  have hk1 : (analyzeKeywordUsage asciiLower (.str "a b".toList) (.str "b".toList)).score
      = 50 := by
    have h : (analyzeKeywordUsage asciiLower (.str "a b".toList) (.str "b".toList)).score =
        (keywordUsageCheck (keywordDensityOf asciiLower "a b".toList "b".toList)
          "b".toList).score := rfl
    rw [h, hd1, hc]
  have hk2 : (analyzeKeywordUsage asciiLower (.str "# b".toList) (.str "b".toList)).score
      = 50 := by
    have h : (analyzeKeywordUsage asciiLower (.str "# b".toList) (.str "b".toList)).score =
        (keywordUsageCheck (keywordDensityOf asciiLower "# b".toList "b".toList)
          "b".toList).score := rfl
    rw [h, hd2, hc]
  have ht : (analyzeTitleTag asciiLower (.str []) (.str "b".toList)).score = 0 := by decide
  have hm : (analyzeMetaDescription asciiLower (.str []) (.str "b".toList)).score = 0 := by
    decide
  refine ⟨by decide, by rw [hd1, hd2], ?_, ?_⟩
  · obtain ⟨a, ha, -, ho, -⟩ :=
      performSEOAnalysis_str asciiLower "a b".toList (.str []) (.str []) (.str "b".toList)
    have hl : (contentLengthFactor (.str "a b".toList)).score = 30 := by decide
    have hh : (headingStructureOf "a b".toList).score = 20 := by decide
    have hli : (linkStructureOf "a b".toList).score = 30 := by decide
    rw [ha]
    show Except.ok a.overallScore = Except.ok 22
    rw [ho, ht, hm, hl, hk1, hh, hli]
    have h6 : (6 : ℚ) = ((6 : ℕ) : ℚ) := by norm_num
    rw [h6, mathRound_div _ _ (by norm_num)]
    rfl
  · obtain ⟨a, ha, -, ho, -⟩ :=
      performSEOAnalysis_str asciiLower "# b".toList (.str []) (.str []) (.str "b".toList)
    have hl : (contentLengthFactor (.str "# b".toList)).score = 30 := by decide
    have hh : (headingStructureOf "# b".toList).score = 70 := by decide
    have hli : (linkStructureOf "# b".toList).score = 30 := by decide
    rw [ha]
    show Except.ok a.overallScore = Except.ok 30
    rw [ho, ht, hm, hl, hk2, hh, hli]
    have h6 : (6 : ℚ) = ((6 : ℕ) : ℚ) := by norm_num
    rw [h6, mathRound_div _ _ (by norm_num)]
    rfl

/-- C2, amended. For every title, meta description and target keyword, any two contents
that have the same word count, the same target-keyword density, the same number of
headings and the same number of links get the same `overallScore` from
`performSEOAnalysis`. -/
theorem overallScore_determined_by_checks (lc : JSString → JSString)
    (title metaDescription targetKeyword content₁ content₂ : JSString)
    (hw : wordCount (.str content₁) = wordCount (.str content₂))
    (hd : keywordDensityOf lc content₁ targetKeyword =
      keywordDensityOf lc content₂ targetKeyword)
    (hh : countMatches matchHeading content₁ = countMatches matchHeading content₂)
    (hl : countMatches matchLink content₁ = countMatches matchLink content₂) :
    Except.map (fun a => a.overallScore)
        (performSEOAnalysis lc (.str content₁) (.str title) (.str metaDescription)
          (.str targetKeyword)) =
      Except.map (fun a => a.overallScore)
        (performSEOAnalysis lc (.str content₂) (.str title) (.str metaDescription)
          (.str targetKeyword)) := by
  obtain ⟨a₁, h₁, -, ho₁, -⟩ :=
    performSEOAnalysis_str lc content₁ (.str title) (.str metaDescription) (.str targetKeyword)
  obtain ⟨a₂, h₂, -, ho₂, -⟩ :=
    performSEOAnalysis_str lc content₂ (.str title) (.str metaDescription) (.str targetKeyword)
  obtain ⟨e1, e2, e3, e4⟩ := content_scores_congr lc targetKeyword content₁ content₂ hw hd hh hl
  rw [h₁, h₂]
  show Except.ok a₁.overallScore = Except.ok a₂.overallScore
  rw [ho₁, ho₂, e1, e2, e3, e4]

/-- C2, amended, at the contents "a b" and "c b" with keyword "b". -/
theorem overallScore_determined_by_checks_witness :
    wordCount (.str "a b".toList) = wordCount (.str "c b".toList) ∧
      keywordDensityOf asciiLower "a b".toList "b".toList =
        keywordDensityOf asciiLower "c b".toList "b".toList ∧
      countMatches matchHeading "a b".toList = countMatches matchHeading "c b".toList ∧
      countMatches matchLink "a b".toList = countMatches matchLink "c b".toList ∧
      Except.map (fun a => a.overallScore)
          (performSEOAnalysis asciiLower (.str "a b".toList) (.str "T".toList) (.str [])
            (.str "b".toList)) =
        Except.map (fun a => a.overallScore)
          (performSEOAnalysis asciiLower (.str "c b".toList) (.str "T".toList) (.str [])
            (.str "b".toList)) :=
  ⟨by decide, rfl, by decide, by decide,
    overallScore_determined_by_checks asciiLower "T".toList [] "b".toList "a b".toList
      "c b".toList (by decide) rfl (by decide) (by decide)⟩

/-! ## Claims about the keyword-density heuristic of the two components -/

/-- C7, counterexample. At density 0.5 the keyword-usage check of `SEOAnalyzer` gives
the full score 100 while `SEOOptimizer` does not mark the density as good (yellow badge,
alert icon). -/
theorem density_half_full_score_but_not_good :
    (keywordUsageCheck (1 / 2) []).score = 100 ∧ densityGood (1 / 2) = false ∧
      densityBadgeClass (1 / 2) = "bg-yellow-100 text-yellow-800" ∧
      densityIcon (1 / 2) = ("AlertCircle", "w-4 h-4 text-yellow-600") := by
  have hg : densityGood (1 / 2) = false := by
    simp only [densityGood]
    norm_num
  refine ⟨?_, hg, ?_, ?_⟩
  · norm_num [keywordUsageCheck]
  · simp only [densityBadgeClass, hg]
    rfl
  · simp only [densityIcon, hg]
    rfl

/-- C7, amended. The keyword-usage check of `SEOAnalyzer` gives the full score 100
exactly when `0.5 ≤ d ≤ 3`, `SEOOptimizer` marks the density as good (green badge and
check icon) exactly when `1 ≤ d ≤ 3`, and so the two agree exactly for the densities
outside `0.5 ≤ d < 1`. -/
theorem density_thresholds (d : ℚ) (keyword : JSString) :
    ((keywordUsageCheck d keyword).score = 100 ↔ (1 / 2 ≤ d ∧ d ≤ 3)) ∧
      ((densityBadgeClass d = "bg-green-100 text-green-800" ∧
          densityIcon d = ("CheckCircle", "w-4 h-4 text-green-600")) ↔ (1 ≤ d ∧ d ≤ 3)) ∧
      (((keywordUsageCheck d keyword).score = 100 ↔
          (densityBadgeClass d = "bg-green-100 text-green-800" ∧
            densityIcon d = ("CheckCircle", "w-4 h-4 text-green-600"))) ↔
        ¬ (1 / 2 ≤ d ∧ d < 1)) := by
  have hA : (keywordUsageCheck d keyword).score = 100 ↔ (1 / 2 ≤ d ∧ d ≤ 3) := by
    unfold keywordUsageCheck
    split_ifs with h0 h1 h2
    · subst h0
      norm_num
    · simp only [show ¬ ((40 : ℤ) = 100) by decide, false_iff]
      intro h
      linarith [h.1]
    · simp only [show ¬ ((50 : ℤ) = 100) by decide, false_iff]
      intro h
      linarith [h.2]
    · simp only [true_iff]
      exact ⟨not_lt.mp h1, not_lt.mp h2⟩
  have hG : densityGood d = true ↔ (1 ≤ d ∧ d ≤ 3) := by
    simp [densityGood]
  have hB : (densityBadgeClass d = "bg-green-100 text-green-800" ∧
      densityIcon d = ("CheckCircle", "w-4 h-4 text-green-600")) ↔ (1 ≤ d ∧ d ≤ 3) := by
    rw [← hG]
    unfold densityBadgeClass densityIcon
    by_cases hg : densityGood d = true
    · simp [hg]
    · have hf : densityGood d = false := by simpa using hg
      rw [hf]
      constructor
      · intro h
        exact absurd h.1 (by decide)
      · intro h
        exact absurd h (by decide)
  refine ⟨hA, hB, ?_⟩
  rw [hA, hB]
  constructor
  · intro h hbad
    have h1 : (1 : ℚ) ≤ d := (h.mp ⟨hbad.1, by linarith [hbad.2]⟩).1
    linarith [hbad.2]
  · intro h
    constructor
    · intro hd
      refine ⟨?_, hd.2⟩
      by_contra hlt
      exact h ⟨hd.1, not_le.mp hlt⟩
    · intro hd
      exact ⟨by linarith [hd.1], hd.2⟩

/-! ## Facts about the mock keyword data -/

theorem startsWith_append_self (x q : JSString) : startsWith (x ++ q) x = true := by
  induction x with
  | nil => cases q <;> rfl
  | cons c cs ih => simp [startsWith, ih]

theorem includes_of_startsWith (s x : JSString) (h : startsWith s x = true) :
    includes s x = true := by
  cases s with
  | nil => exact h
  | cons c cs => simp [includes, h]

theorem includes_append_left (p s x : JSString) (h : includes s x = true) :
    includes (p ++ s) x = true := by
  induction p with
  | nil => exact h
  | cons c cs ih => simp [includes, ih]

theorem includes_infix (p x q : JSString) : includes (p ++ (x ++ q)) x = true :=
  includes_append_left p _ x (includes_of_startsWith _ _ (startsWith_append_self x q))

theorem mapVariations_keywords (random : Nat → ℚ) (l : List JSString) :
    ∀ index, (mapVariations random index l).map (fun e => e.keyword) = l := by
  induction l with
  | nil => intro index; rfl
  | cons k ks ih =>
    intro index
    simp only [mapVariations, List.map_cons, ih]
    rfl

theorem variations_all_include (baseTerm : JSString) :
    (variations baseTerm).all (fun k => includes k baseTerm) = true := by
  have h0 : includes baseTerm baseTerm = true := by
    simpa using includes_infix [] baseTerm []
  have hs : ∀ q : JSString, includes (baseTerm ++ q) baseTerm = true :=
    fun q => includes_infix [] baseTerm q
  have hp : ∀ p : JSString, includes (p ++ baseTerm) baseTerm = true := by
    intro p
    simpa using includes_infix p baseTerm []
  simp only [variations, List.all_cons, List.all_nil, h0, hs, hp, Bool.and_self]

theorem arrayAt_three (i : ℤ) (h0 : 0 ≤ i) (h1 : i < 3) :
    arrayAt ["Low", "Medium", "High"] i ∈ [some "Low", some "Medium", some "High"] := by
  interval_cases i <;> simp [arrayAt]

theorem arrayAt_four (i : ℤ) (h0 : 0 ≤ i) (h1 : i < 4) :
    arrayAt ["Informational", "Commercial", "Transactional", "Navigational"] i ∈
      [some "Informational", some "Commercial", some "Transactional",
       some "Navigational"] := by
  interval_cases i <;> simp [arrayAt]

/-! ### Binary64 rounding -/

theorem roundNearestEven_sub_le (q : ℚ) :
    (roundNearestEven q : ℚ) - q ≤ 1 / 2 ∧ q - (roundNearestEven q : ℚ) ≤ 1 / 2 := by
  have h1 := Int.floor_le q
  have h2 := Int.lt_floor_add_one q
  unfold roundNearestEven
  split_ifs with a b c
  · constructor <;> linarith
  · push_cast; constructor <;> linarith
  · constructor <;> linarith
  · push_cast; constructor <;> linarith

theorem roundNearestEven_nonneg (q : ℚ) (h : 0 ≤ q) : 0 ≤ roundNearestEven q := by
  have hf : 0 ≤ ⌊q⌋ := Int.floor_nonneg.mpr h
  unfold roundNearestEven
  split_ifs <;> omega

theorem roundNearestEven_intCast (k : ℤ) : roundNearestEven (k : ℚ) = k := by
  unfold roundNearestEven
  simp


theorem binary64_unit_pos (x : ℚ) :
    (0 : ℚ) < (2 : ℚ) ^ (max (Int.log 2 |x|) (-1022) - 52) :=
  zpow_pos (by norm_num) _

theorem toBinary64_of_ne_zero (x : ℚ) (h : x ≠ 0) :
    toBinary64 x =
      (roundNearestEven (x / (2 : ℚ) ^ (max (Int.log 2 |x|) (-1022) - 52)) : ℚ) *
        (2 : ℚ) ^ (max (Int.log 2 |x|) (-1022) - 52) := by
  unfold toBinary64
  rw [if_neg h]

theorem toBinary64_nonneg (x : ℚ) (h : 0 ≤ x) : 0 ≤ toBinary64 x := by
  by_cases hx : x = 0
  · rw [hx]; simp [toBinary64]
  · rw [toBinary64_of_ne_zero x hx]
    have hu := binary64_unit_pos x
    have hk : 0 ≤ roundNearestEven (x / (2 : ℚ) ^ (max (Int.log 2 |x|) (-1022) - 52)) :=
      roundNearestEven_nonneg _ (div_nonneg h hu.le)
    have hk' : (0 : ℚ) ≤
        (roundNearestEven (x / (2 : ℚ) ^ (max (Int.log 2 |x|) (-1022) - 52)) : ℚ) := by
      exact_mod_cast hk
    exact mul_nonneg hk' hu.le

theorem two_zpow_log_le (x : ℚ) (h : 0 < x) : (2 : ℚ) ^ Int.log 2 x ≤ x := by
  have := @Int.zpow_log_le_self ℚ _ _ 2 x (by norm_num) h
  simpa using this

theorem lt_two_zpow_log_succ (x : ℚ) : x < (2 : ℚ) ^ (Int.log 2 x + 1) := by
  have := @Int.lt_zpow_succ_log_self ℚ _ _ 2 (by norm_num) x
  simpa using this

/-- A product that stays below `n * (1 - 2^-53)` rounds to a binary64 number below `n`. -/
theorem toBinary64_lt_natCast (n : ℕ) (hn : 1 ≤ n) (x : ℚ) (h0 : 0 ≤ x)
    (hx : x ≤ (n : ℚ) * (1 - 1 / 2 ^ 53)) : toBinary64 x < (n : ℚ) := by
  have hnq : (1 : ℚ) ≤ (n : ℚ) := by exact_mod_cast hn
  by_cases hz : x = 0
  · rw [hz]
    simp only [toBinary64, if_true]
    linarith
  · have hpos : 0 < x := lt_of_le_of_ne h0 (Ne.symm hz)
    rw [toBinary64_of_ne_zero x hz, abs_of_pos hpos]
    have hu := binary64_unit_pos x
    rw [abs_of_pos hpos] at hu
    by_contra hge
    rw [not_lt] at hge
    have hr := (roundNearestEven_sub_le
      (x / (2 : ℚ) ^ (max (Int.log 2 x) (-1022) - 52))).1
    generalize roundNearestEven (x / (2 : ℚ) ^ (max (Int.log 2 x) (-1022) - 52)) = k
      at hge hr
    generalize he : max (Int.log 2 x) (-1022) = e at hge hr hu
    -- k * u ≤ x + u / 2
    have h1 : (k : ℚ) * (2 : ℚ) ^ (e - 52) ≤ x + (2 : ℚ) ^ (e - 52) / 2 := by
      have h2 : (k : ℚ) ≤ x / (2 : ℚ) ^ (e - 52) + 1 / 2 := by linarith
      calc (k : ℚ) * (2 : ℚ) ^ (e - 52)
          ≤ (x / (2 : ℚ) ^ (e - 52) + 1 / 2) * (2 : ℚ) ^ (e - 52) :=
            mul_le_mul_of_nonneg_right h2 hu.le
        _ = x + (2 : ℚ) ^ (e - 52) / 2 := by field_simp; ring
    -- hence n ≤ 2 ^ e
    have hsplit : (2 : ℚ) ^ (e - 52) = (2 : ℚ) ^ e / 2 ^ 52 := by
      rw [zpow_sub₀ (by norm_num)]
      norm_num
    have hne : (n : ℚ) ≤ (2 : ℚ) ^ e := by
      rw [hsplit] at h1 hge
      have h53 : (n : ℚ) * (1 / 2 ^ 53) ≤ (2 : ℚ) ^ e / 2 ^ 52 / 2 := by linarith
      have h54 : (n : ℚ) * (1 / 2 ^ 53) = (n : ℚ) / 2 ^ 52 / 2 := by norm_num; ring
      rw [h54] at h53
      have h55 : (n : ℚ) / 2 ^ 52 ≤ (2 : ℚ) ^ e / 2 ^ 52 := by linarith
      exact (div_le_div_iff_of_pos_right (by norm_num : (0 : ℚ) < 2 ^ 52)).mp h55
    have he0 : 0 ≤ e := by
      by_contra hneg
      rw [not_le] at hneg
      have : (2 : ℚ) ^ e < 1 := zpow_lt_one_of_neg₀ (by norm_num) hneg
      linarith
    have helog : e = Int.log 2 x := by
      rw [← he]
      apply max_eq_left
      have : max (Int.log 2 x) (-1022) = Int.log 2 x ∨ max (Int.log 2 x) (-1022) = -1022 :=
        max_choice _ _
      rcases this with h | h
      · rw [h] at he; omega
      · rw [h] at he; omega
    have hlog := two_zpow_log_le x hpos
    rw [← helog] at hlog
    have hxn : x < (n : ℚ) := by
      have : (n : ℚ) * (1 - 1 / 2 ^ 53) < (n : ℚ) := by
        have : (0 : ℚ) < (n : ℚ) * (1 / 2 ^ 53) := by positivity
        linarith
      linarith
    linarith


/-- A binary64 number below 1 is at most `1 - 2^-53`. -/
theorem le_pred_one_of_binary64 (r : ℚ) (hr : toBinary64 r = r) (h0 : 0 ≤ r) (h1 : r < 1) :
    r ≤ 1 - 1 / 2 ^ 53 := by
  by_cases hz : r = 0
  · rw [hz]; norm_num
  · have hpos : 0 < r := lt_of_le_of_ne h0 (Ne.symm hz)
    have hlog1 := two_zpow_log_le r hpos
    have hlog2 := lt_two_zpow_log_succ r
    have hlogneg : Int.log 2 r < 0 := by
      by_contra hge
      rw [not_lt] at hge
      have : (1 : ℚ) ≤ (2 : ℚ) ^ Int.log 2 r := one_le_zpow₀ (by norm_num) hge
      linarith
    rw [toBinary64_of_ne_zero r hz, abs_of_pos hpos] at hr
    generalize roundNearestEven (r / (2 : ℚ) ^ (max (Int.log 2 r) (-1022) - 52)) = k at hr
    have hle : Int.log 2 r ≤ max (Int.log 2 r) (-1022) := le_max_left _ _
    have hmax : max (Int.log 2 r) (-1022) ≤ -1 := max_le (by omega) (by norm_num)
    generalize max (Int.log 2 r) (-1022) = e at hr hle hmax
    by_cases he : e = -1
    · subst he
      have hu : (2 : ℚ) ^ ((-1 : ℤ) - 52) = 1 / 2 ^ 53 := by
        rw [show ((-1 : ℤ) - 52) = -53 by norm_num, zpow_neg]
        norm_num
      rw [hu] at hr
      have hk : (k : ℚ) < 2 ^ 53 := by
        have : (k : ℚ) * (1 / 2 ^ 53) < 1 := by rw [hr]; exact h1
        have h2 : (k : ℚ) = (k : ℚ) * (1 / 2 ^ 53) * 2 ^ 53 := by field_simp
        rw [h2]
        calc (k : ℚ) * (1 / 2 ^ 53) * 2 ^ 53 < 1 * 2 ^ 53 :=
              mul_lt_mul_of_pos_right this (by norm_num)
          _ = 2 ^ 53 := by norm_num
      have hk' : k < 2 ^ 53 := by exact_mod_cast hk
      have hk'' : (k : ℚ) ≤ 2 ^ 53 - 1 := by
        have : k ≤ 2 ^ 53 - 1 := by omega
        exact_mod_cast this
      rw [← hr]
      calc (k : ℚ) * (1 / 2 ^ 53) ≤ (2 ^ 53 - 1) * (1 / 2 ^ 53) :=
            mul_le_mul_of_nonneg_right hk'' (by norm_num)
        _ = 1 - 1 / 2 ^ 53 := by norm_num
    · have he2 : e ≤ -2 := by omega
      have hstep : (2 : ℚ) ^ (Int.log 2 r + 1) ≤ (2 : ℚ) ^ (-1 : ℤ) :=
        zpow_le_zpow_right₀ (by norm_num) (by omega)
      have hhalf : (2 : ℚ) ^ (-1 : ℤ) = 1 / 2 := by norm_num
      rw [hhalf] at hstep
      have : r < 1 / 2 := lt_of_lt_of_le hlog2 hstep
      have h53 : (1 : ℚ) / 2 ≤ 1 - 1 / 2 ^ 53 := by norm_num
      linarith

/-- The floor of the binary64 product `r * n` of a binary64 draw `0 ≤ r < 1` and a
positive integer `n` is an index below `n`. -/
theorem floor_binary64_product (r : ℚ) (n : ℕ) (hn : 1 ≤ n) (hr : toBinary64 r = r)
    (h0 : 0 ≤ r) (h1 : r < 1) :
    0 ≤ ⌊toBinary64 (r * n)⌋ ∧ ⌊toBinary64 (r * n)⌋ < n := by
  have hnq : (0 : ℚ) ≤ (n : ℚ) := Nat.cast_nonneg n
  have hprod : 0 ≤ r * n := mul_nonneg h0 hnq
  have hle := le_pred_one_of_binary64 r hr h0 h1
  have hx : r * n ≤ (n : ℚ) * (1 - 1 / 2 ^ 53) := by
    rw [mul_comm r]
    exact mul_le_mul_of_nonneg_left hle hnq
  constructor
  · exact Int.floor_nonneg.mpr (toBinary64_nonneg _ hprod)
  · rw [Int.floor_lt]
    exact_mod_cast toBinary64_lt_natCast n hn (r * n) hprod hx

/-- A quotient by the spacing that is within less than a half of the integer `k` rounds to
`k`. -/
theorem roundNearestEven_eq_of_abs_lt (q : ℚ) (k : ℤ) (h : |q - k| < 1 / 2) :
    roundNearestEven q = k := by
  have hr := roundNearestEven_sub_le q
  rw [abs_lt] at h
  have h1 : ((roundNearestEven q - k : ℤ) : ℚ) < 1 := by push_cast; linarith [h.1, hr.1]
  have h2 : (-1 : ℚ) < ((roundNearestEven q - k : ℤ) : ℚ) := by
    push_cast; linarith [h.2, hr.2]
  have h1' : roundNearestEven q - k < 1 := by exact_mod_cast h1
  have h2' : -1 < roundNearestEven q - k := by exact_mod_cast h2
  omega

theorem log_two_eq (x : ℚ) (e : ℤ) (hx : 0 < x) (h1 : (2 : ℚ) ^ e ≤ x)
    (h2 : x < (2 : ℚ) ^ (e + 1)) : Int.log 2 x = e := by
  have ha : e ≤ Int.log 2 x := by
    apply (@Int.zpow_le_iff_le_log ℚ _ _ 2 (by norm_num) e x hx).mp
    simpa using h1
  have hb : Int.log 2 x < e + 1 := by
    apply (@Int.lt_zpow_iff_log_lt ℚ _ _ 2 (by norm_num) (e + 1) x hx).mp
    simpa using h2
  omega

/-- The binary64 number nearest to a positive `x` in the binade `2^e ≤ x < 2^(e+1)`,
once the integer `k` nearest to `x / 2^(e-52)` is known. -/
theorem toBinary64_eq (x : ℚ) (e k : ℤ) (hx : 0 < x) (he : -1022 ≤ e)
    (h1 : (2 : ℚ) ^ e ≤ x) (h2 : x < (2 : ℚ) ^ (e + 1))
    (hk : |x / (2 : ℚ) ^ (e - 52) - k| < 1 / 2) :
    toBinary64 x = (k : ℚ) * (2 : ℚ) ^ (e - 52) := by
  rw [toBinary64_of_ne_zero x (ne_of_gt hx), abs_of_pos hx, log_two_eq x e hx h1 h2,
    max_eq_left he, roundNearestEven_eq_of_abs_lt _ k hk]

theorem toBinary64_half : toBinary64 (1 / 2) = 1 / 2 := by
  rw [toBinary64_eq (1 / 2) (-1) (2 ^ 52) (by norm_num) (by norm_num) (by norm_num)
    (by norm_num) (by norm_num [abs_of_nonneg])]
  norm_num

/-- Three draws at which rounding decides the result: at the binary64 number nearest to
1/3 the product with 3 is a tie that rounds to 1, so the index is 1; at the one nearest
to 0.29 the product with 10000 rounds to 2900; at 0.125 the sum `r * 5 + 0.1` rounds
below 0.725 and is formatted `0.72`. -/
theorem binary64_rounding_examples :
    toBinary64 (6004799503160661 / 2 ^ 54) = 6004799503160661 / 2 ^ 54 ∧
      ⌊toBinary64 (6004799503160661 / 2 ^ 54 * 3)⌋ = 1 ∧
      toBinary64 (5224175567749775 / 2 ^ 54) = 5224175567749775 / 2 ^ 54 ∧
      ⌊toBinary64 (5224175567749775 / 2 ^ 54 * 10000)⌋ + 100 = 3000 ∧
      toBinary64 (toBinary64 (1 / 8 * 5) + toBinary64 (1 / 10)) =
        6530219459687219 / 2 ^ 53 := by
  have a1 : toBinary64 (6004799503160661 / 2 ^ 54) = 6004799503160661 / 2 ^ 54 := by
    rw [toBinary64_eq (6004799503160661 / 2 ^ 54) (-2) 6004799503160661 (by norm_num)
      (by norm_num) (by norm_num) (by norm_num) (by rw [abs_lt]; constructor <;> norm_num)]
    norm_num
  have a2 : toBinary64 (6004799503160661 / 2 ^ 54 * 3) = 1 := by
    have hx : (6004799503160661 / 2 ^ 54 * 3 : ℚ) ≠ 0 := by norm_num
    have hlog : Int.log 2 (6004799503160661 / 2 ^ 54 * 3 : ℚ) = -1 :=
      log_two_eq _ (-1) (by norm_num) (by norm_num) (by norm_num)
    have hq : (6004799503160661 / 2 ^ 54 * 3 : ℚ) / (2 : ℚ) ^ ((-1 : ℤ) - 52) =
        18014398509481983 / 2 := by norm_num
    have hfl : ⌊(18014398509481983 / 2 : ℚ)⌋ = 9007199254740991 := by
      rw [Int.floor_eq_iff]; norm_num
    have hr : roundNearestEven (18014398509481983 / 2) = 9007199254740992 := by
      unfold roundNearestEven
      rw [hfl]
      norm_num
    rw [toBinary64_of_ne_zero _ hx, abs_of_pos (by norm_num), hlog,
      max_eq_left (by norm_num), hq, hr]
    norm_num
  have a3 : toBinary64 (5224175567749775 / 2 ^ 54) = 5224175567749775 / 2 ^ 54 := by
    rw [toBinary64_eq (5224175567749775 / 2 ^ 54) (-2) 5224175567749775 (by norm_num)
      (by norm_num) (by norm_num) (by norm_num) (by rw [abs_lt]; constructor <;> norm_num)]
    norm_num
  have a4 : toBinary64 (5224175567749775 / 2 ^ 54 * 10000) = 2900 := by
    rw [toBinary64_eq (5224175567749775 / 2 ^ 54 * 10000) 11 (2900 * 2 ^ 41) (by norm_num)
      (by norm_num) (by norm_num) (by norm_num) (by rw [abs_lt]; constructor <;> norm_num)]
    norm_num
  have a5 : toBinary64 (1 / 8 * 5) = 5 / 8 := by
    rw [toBinary64_eq (1 / 8 * 5) (-1) (5 * 2 ^ 50) (by norm_num) (by norm_num)
      (by norm_num) (by norm_num) (by rw [abs_lt]; constructor <;> norm_num)]
    norm_num
  have a6 : toBinary64 (1 / 10) = 7205759403792794 / 2 ^ 56 := by
    rw [toBinary64_eq (1 / 10) (-4) 7205759403792794 (by norm_num) (by norm_num)
      (by norm_num) (by norm_num) (by rw [abs_lt]; constructor <;> norm_num)]
    norm_num
  have a7 : toBinary64 (5 / 8 + 7205759403792794 / 2 ^ 56) =
      6530219459687219 / 2 ^ 53 := by
    rw [toBinary64_eq (5 / 8 + 7205759403792794 / 2 ^ 56) (-1) 6530219459687219
      (by norm_num) (by norm_num) (by norm_num) (by norm_num)
      (by rw [abs_lt]; constructor <;> norm_num)]
    norm_num
  refine ⟨a1, ?_, a3, ?_, ?_⟩
  · rw [a2, Int.floor_eq_iff]; norm_num
  · rw [a4]
    have : ⌊(2900 : ℚ)⌋ = 2900 := by rw [Int.floor_eq_iff]; norm_num
    rw [this]; norm_num
  · rw [a5, a6, a7]

/-- The entry built from six binary64 draws in `[0, 1)` has its fields in range. -/
theorem mockKeywordOf_in_range (k : JSString) (r0 r1 r2 r3 r4 r5 : ℚ)
    (h0 : toBinary64 r0 = r0 ∧ 0 ≤ r0 ∧ r0 < 1) (h1 : toBinary64 r1 = r1 ∧ 0 ≤ r1 ∧ r1 < 1)
    (h3 : toBinary64 r3 = r3 ∧ 0 ≤ r3 ∧ r3 < 1)
    (h5 : toBinary64 r5 = r5 ∧ 0 ≤ r5 ∧ r5 < 1) :
    (mockKeywordOf k r0 r1 r2 r3 r4 r5).competition ∈
        [some "Low", some "Medium", some "High"] ∧
      (mockKeywordOf k r0 r1 r2 r3 r4 r5).intent ∈
        [some "Informational", some "Commercial", some "Transactional",
         some "Navigational"] ∧
      100 ≤ (mockKeywordOf k r0 r1 r2 r3 r4 r5).searchVolume ∧
      (mockKeywordOf k r0 r1 r2 r3 r4 r5).searchVolume ≤ 10099 ∧
      0 ≤ (mockKeywordOf k r0 r1 r2 r3 r4 r5).difficulty ∧
      (mockKeywordOf k r0 r1 r2 r3 r4 r5).difficulty ≤ 99 := by
  have e0 := floor_binary64_product r0 10000 (by norm_num) h0.1 h0.2.1 h0.2.2
  have e1 := floor_binary64_product r1 100 (by norm_num) h1.1 h1.2.1 h1.2.2
  have e3 := floor_binary64_product r3 3 (by norm_num) h3.1 h3.2.1 h3.2.2
  have e5 := floor_binary64_product r5 4 (by norm_num) h5.1 h5.2.1 h5.2.2
  simp only [Nat.cast_ofNat] at e0 e1 e3 e5
  refine ⟨arrayAt_three _ e3.1 e3.2, arrayAt_four _ e5.1 e5.2, ?_, ?_, ?_, ?_⟩
  · show (100 : ℤ) ≤ ⌊toBinary64 (r0 * 10000)⌋ + 100
    omega
  · show ⌊toBinary64 (r0 * 10000)⌋ + 100 ≤ (10099 : ℤ)
    omega
  · exact e1.1
  · show ⌊toBinary64 (r1 * 100)⌋ ≤ (99 : ℤ)
    omega

theorem mapVariations_in_range (random : Nat → ℚ)
    (h : ∀ n, toBinary64 (random n) = random n ∧ 0 ≤ random n ∧ random n < 1)
    (l : List JSString) :
    ∀ index, ∀ e ∈ mapVariations random index l,
      e.competition ∈ [some "Low", some "Medium", some "High"] ∧
      e.intent ∈ [some "Informational", some "Commercial", some "Transactional",
        some "Navigational"] ∧
      100 ≤ e.searchVolume ∧ e.searchVolume ≤ 10099 ∧ 0 ≤ e.difficulty ∧
      e.difficulty ≤ 99 := by
  induction l with
  | nil => intro index e he; simp [mapVariations] at he
  | cons k ks ih =>
    intro index e he
    simp only [mapVariations, List.mem_cons] at he
    rcases he with he | he
    · rw [he]
      exact mockKeywordOf_in_range k _ _ _ _ _ _ (h _) (h _) (h _) (h _)
    · exact ih _ e he

/-! ## Claims about `generateMockKeywords` -/

/-- C8. For every seed term and every two sequences of random draws,
`generateMockKeywords` returns 15 entries whose keyword strings are the same in both
runs, in the same order, the first being the seed term itself and each containing the
seed term as a substring. -/
theorem generateMockKeywords_keywords_not_random (baseTerm : JSString)
    (random₁ random₂ : Nat → ℚ) :
    (generateMockKeywords baseTerm random₁).length = 15 ∧
      (generateMockKeywords baseTerm random₂).length = 15 ∧
      (generateMockKeywords baseTerm random₁).map (fun e => e.keyword) =
        (generateMockKeywords baseTerm random₂).map (fun e => e.keyword) ∧
      ((generateMockKeywords baseTerm random₁).map (fun e => e.keyword)).head? =
        some baseTerm ∧
      ((generateMockKeywords baseTerm random₁).map (fun e => e.keyword)).all
        (fun k => includes k baseTerm) = true := by
  have h1 := mapVariations_keywords random₁ (variations baseTerm) 0
  have h2 := mapVariations_keywords random₂ (variations baseTerm) 0
  have hl : ∀ random, (generateMockKeywords baseTerm random).length = 15 := by
    intro random
    have h := congrArg List.length (mapVariations_keywords random (variations baseTerm) 0)
    rw [List.length_map] at h
    exact h
  refine ⟨hl _, hl _, ?_, ?_, ?_⟩
  · unfold generateMockKeywords
    rw [h1, h2]
  · unfold generateMockKeywords
    rw [h1]
    rfl
  · unfold generateMockKeywords
    rw [h1]
    exact variations_all_include baseTerm

/-- C9. When every random draw `r` is a binary64 number with `0 ≤ r < 1`, the table
indices `floor(r * 3)` and `floor(r * 4)`, computed in binary64 as the code computes
them, are in bounds, and every entry of `generateMockKeywords` has a competition among
Low, Medium, High, an intent among Informational, Commercial, Transactional,
Navigational, a `searchVolume` between 100 and 10099 and a `difficulty` between 0 and
99. -/
theorem generateMockKeywords_entries_in_range (baseTerm : JSString) (random : Nat → ℚ)
    (h : ∀ n, toBinary64 (random n) = random n ∧ 0 ≤ random n ∧ random n < 1) :
    (∀ n, 0 ≤ ⌊toBinary64 (random n * 3)⌋ ∧ ⌊toBinary64 (random n * 3)⌋ < 3 ∧
        0 ≤ ⌊toBinary64 (random n * 4)⌋ ∧ ⌊toBinary64 (random n * 4)⌋ < 4) ∧
      ∀ e ∈ generateMockKeywords baseTerm random,
        e.competition ∈ [some "Low", some "Medium", some "High"] ∧
        e.intent ∈ [some "Informational", some "Commercial", some "Transactional",
          some "Navigational"] ∧
        100 ≤ e.searchVolume ∧ e.searchVolume ≤ 10099 ∧ 0 ≤ e.difficulty ∧
        e.difficulty ≤ 99 := by
  constructor
  · intro n
    have e3 := floor_binary64_product (random n) 3 (by norm_num) (h n).1 (h n).2.1 (h n).2.2
    have e4 := floor_binary64_product (random n) 4 (by norm_num) (h n).1 (h n).2.1 (h n).2.2
    simp only [Nat.cast_ofNat] at e3 e4
    exact ⟨e3.1, e3.2, e4.1, e4.2⟩
  · exact mapVariations_in_range random h (variations baseTerm) 0

/-- C9 at the seed term "seo" with every draw equal to 1/2. -/
theorem generateMockKeywords_entries_in_range_witness :
    (∀ n : Nat, toBinary64 ((fun _ => (1 / 2 : ℚ)) n) = (fun _ => (1 / 2 : ℚ)) n ∧
        0 ≤ (fun _ => (1 / 2 : ℚ)) n ∧ (fun _ => (1 / 2 : ℚ)) n < 1) ∧
      ((∀ n : Nat, 0 ≤ ⌊toBinary64 ((fun _ => (1 / 2 : ℚ)) n * 3)⌋ ∧
          ⌊toBinary64 ((fun _ => (1 / 2 : ℚ)) n * 3)⌋ < 3 ∧
          0 ≤ ⌊toBinary64 ((fun _ => (1 / 2 : ℚ)) n * 4)⌋ ∧
          ⌊toBinary64 ((fun _ => (1 / 2 : ℚ)) n * 4)⌋ < 4) ∧
        ∀ e ∈ generateMockKeywords "seo".toList (fun _ => (1 / 2 : ℚ)),
          e.competition ∈ [some "Low", some "Medium", some "High"] ∧
          e.intent ∈ [some "Informational", some "Commercial", some "Transactional",
            some "Navigational"] ∧
          100 ≤ e.searchVolume ∧ e.searchVolume ≤ 10099 ∧ 0 ≤ e.difficulty ∧
          e.difficulty ≤ 99) :=
  ⟨fun _ => ⟨toBinary64_half, by norm_num, by norm_num⟩,
    generateMockKeywords_entries_in_range "seo".toList (fun _ => (1 / 2 : ℚ))
      (fun _ => ⟨toBinary64_half, by norm_num, by norm_num⟩)⟩

/-! ## Facts about storage and headers -/

theorem getItem_cons (key k v : String) (rest : List (String × String)) :
    getItem key ((k, v) :: rest) = if k = key then some v else getItem key rest := by
  by_cases h : k = key <;> simp [getItem, List.find?_cons, h]

theorem removeItem_cons (key k v : String) (rest : List (String × String)) :
    removeItem key ((k, v) :: rest) =
      if k = key then removeItem key rest else (k, v) :: removeItem key rest := by
  by_cases h : k = key <;> simp [removeItem, List.filter_cons, h]

theorem getItem_removeItem_self (key : String) (storage : List (String × String)) :
    getItem key (removeItem key storage) = none := by
  induction storage with
  | nil => rfl
  | cons kv rest ih =>
    obtain ⟨k, v⟩ := kv
    rw [removeItem_cons]
    split_ifs with h
    · exact ih
    · rw [getItem_cons, if_neg h]
      exact ih

theorem getItem_removeItem_of_ne (key other : String) (h : other ≠ key)
    (storage : List (String × String)) :
    getItem other (removeItem key storage) = getItem other storage := by
  induction storage with
  | nil => rfl
  | cons kv rest ih =>
    obtain ⟨k, v⟩ := kv
    rw [removeItem_cons]
    split_ifs with hk
    · have ho : ¬ k = other := fun e => h (e.symm.trans hk)
      rw [getItem_cons, if_neg ho]
      exact ih
    · rw [getItem_cons, getItem_cons, ih]

theorem getHeader_cons (name k v : String) (rest : List (String × String)) :
    getHeader name ((k, v) :: rest) = if k = name then some v else getHeader name rest := by
  by_cases h : k = name <;> simp [getHeader, List.find?_cons, h]

theorem getHeader_setHeader_self (name value : String) (headers : List (String × String)) :
    getHeader name (setHeader name value headers) = some value := by
  induction headers with
  | nil => simp [getHeader, setHeader]
  | cons kv rest ih =>
    obtain ⟨k, v⟩ := kv
    unfold setHeader
    split_ifs with h
    · rw [getHeader_cons, if_pos h]
    · rw [getHeader_cons, if_neg h]
      exact ih

theorem getHeader_setHeader_of_ne (name other value : String) (h : other ≠ name)
    (headers : List (String × String)) :
    getHeader other (setHeader name value headers) = getHeader other headers := by
  have h' : ¬ name = other := fun e => h e.symm
  induction headers with
  | nil =>
    unfold setHeader
    rw [getHeader_cons, if_neg h']
  | cons kv rest ih =>
    obtain ⟨k, v⟩ := kv
    unfold setHeader
    split_ifs with hk
    · have ho : ¬ k = other := fun e => h' (hk.symm.trans e)
      rw [getHeader_cons, getHeader_cons, if_neg ho, if_neg ho]
    · rw [getHeader_cons, getHeader_cons, ih]

/-- The effect of the shared text of the two response-error interceptors on the browser
state. -/
theorem browser_after_response_error (error : RequestError) (b b' : Browser)
    (hb : b' = if (error.response.map (fun r => r.status)) = some 401 then
        { localStorage := removeItem "admin_user" (removeItem "admin_token" b.localStorage),
          href := "/login" }
      else b) :
    ((∃ r, error.response = some r ∧ r.status = 401) →
        getItem "admin_token" b'.localStorage = none ∧
        getItem "admin_user" b'.localStorage = none ∧
        b'.href = "/login" ∧
        ∀ key, key ≠ "admin_token" → key ≠ "admin_user" →
          getItem key b'.localStorage = getItem key b.localStorage) ∧
      ((¬ ∃ r, error.response = some r ∧ r.status = 401) → b' = b) := by
  constructor
  · rintro ⟨r, hr, hs⟩
    have hc : (error.response.map (fun r => r.status)) = some 401 := by
      rw [hr, Option.map_some', hs]
    rw [if_pos hc] at hb
    subst hb
    refine ⟨?_, ?_, rfl, ?_⟩
    · show getItem "admin_token"
        (removeItem "admin_user" (removeItem "admin_token" b.localStorage)) = none
      rw [getItem_removeItem_of_ne _ _ (by decide), getItem_removeItem_self]
    · exact getItem_removeItem_self _ _
    · intro key h1 h2
      show getItem key
        (removeItem "admin_user" (removeItem "admin_token" b.localStorage)) = _
      rw [getItem_removeItem_of_ne _ _ h2, getItem_removeItem_of_ne _ _ h1]
  · intro hn
    have hc : ¬ (error.response.map (fun r => r.status)) = some 401 := by
      intro hc
      cases hr : error.response with
      | none => rw [hr] at hc; cases hc
      | some r =>
        rw [hr, Option.map_some'] at hc
        exact hn ⟨r, hr, Option.some.inj hc⟩
    rw [if_neg hc] at hb
    exact hb

/-- The effect of the shared text of the two request interceptors on the
configuration. -/
theorem config_after_request (stored : Option String) (config config' : RequestConfig)
    (hc : config' = match stored with
      | some token =>
        if token ≠ "" then
          { config with
            headers := setHeader "Authorization" ("Bearer " ++ token) config.headers }
        else config
      | none => config) :
    (∀ token, stored = some token → token ≠ "" →
        getHeader "Authorization" config'.headers = some ("Bearer " ++ token)) ∧
      ((stored = none ∨ stored = some "") → config' = config) ∧
      config'.method = config.method ∧ config'.baseURL = config.baseURL ∧
      config'.url = config.url ∧ config'.params = config.params ∧
      config'.data = config.data ∧
      ∀ name, name ≠ "Authorization" →
        getHeader name config'.headers = getHeader name config.headers := by
  cases stored with
  | none =>
    have hc' : config' = config := hc
    subst hc'
    refine ⟨?_, fun _ => rfl, rfl, rfl, rfl, rfl, rfl, fun _ _ => rfl⟩
    intro token h
    cases h
  | some tok =>
    by_cases ht : tok = ""
    · have hc' : config' = config := hc.trans (if_neg (fun hne => hne ht))
      subst hc'
      refine ⟨?_, fun _ => rfl, rfl, rfl, rfl, rfl, rfl, fun _ _ => rfl⟩
      intro token h hne
      exact absurd ((Option.some.inj h).symm.trans ht) hne
    · have hc' : config' = { config with
          headers := setHeader "Authorization" ("Bearer " ++ tok) config.headers } :=
        hc.trans (if_pos ht)
      subst hc'
      refine ⟨?_, ?_, rfl, rfl, rfl, rfl, rfl, ?_⟩
      · intro token h _
        rw [← Option.some.inj h]
        exact getHeader_setHeader_self _ _ _
      · rintro (h | h)
        · cases h
        · exact absurd (Option.some.inj h) ht
      · intro name hn
        exact getHeader_setHeader_of_ne _ _ _ hn _

/-! ## Claims about the interceptors and the query client -/

/-- C4. In both client modules the response-error interceptor rejects with the very
error it received; when the error carries HTTP status 401 the items `admin_token` and
`admin_user` are gone from storage afterwards, the location is `/login` and every other
storage item is unchanged; for every other error (an error without a response included)
storage and location are unchanged. -/
theorem response_error_interceptor_401_only (α : Type) (error : RequestError) (b : Browser) :
    ((apiResponseErrorInterceptor error b : Browser × Settled α).2 = .rejected error ∧
      ((∃ r, error.response = some r ∧ r.status = 401) →
        getItem "admin_token"
          (apiResponseErrorInterceptor error b : Browser × Settled α).1.localStorage = none ∧
        getItem "admin_user"
          (apiResponseErrorInterceptor error b : Browser × Settled α).1.localStorage = none ∧
        (apiResponseErrorInterceptor error b : Browser × Settled α).1.href = "/login" ∧
        ∀ key, key ≠ "admin_token" → key ≠ "admin_user" →
          getItem key
              (apiResponseErrorInterceptor error b : Browser × Settled α).1.localStorage =
            getItem key b.localStorage) ∧
      ((¬ ∃ r, error.response = some r ∧ r.status = 401) →
        (apiResponseErrorInterceptor error b : Browser × Settled α).1 = b)) ∧
    ((apiClientResponseErrorInterceptor error b : Browser × Settled α).2 = .rejected error ∧
      ((∃ r, error.response = some r ∧ r.status = 401) →
        getItem "admin_token"
          (apiClientResponseErrorInterceptor error b : Browser × Settled α).1.localStorage
            = none ∧
        getItem "admin_user"
          (apiClientResponseErrorInterceptor error b : Browser × Settled α).1.localStorage
            = none ∧
        (apiClientResponseErrorInterceptor error b : Browser × Settled α).1.href = "/login" ∧
        ∀ key, key ≠ "admin_token" → key ≠ "admin_user" →
          getItem key
              (apiClientResponseErrorInterceptor error b :
                Browser × Settled α).1.localStorage =
            getItem key b.localStorage) ∧
      ((¬ ∃ r, error.response = some r ∧ r.status = 401) →
        (apiClientResponseErrorInterceptor error b : Browser × Settled α).1 = b)) := by
  have h1 := browser_after_response_error error b
    (apiResponseErrorInterceptor error b : Browser × Settled α).1 rfl
  have h2 := browser_after_response_error error b
    (apiClientResponseErrorInterceptor error b : Browser × Settled α).1 rfl
  exact ⟨⟨rfl, h1.1, h1.2⟩, ⟨rfl, h2.1, h2.2⟩⟩

/-- C5. In both client modules the request interceptor sets the `Authorization` header
to `Bearer ` followed by the stored token when a non-empty `admin_token` is stored;
when none is stored (or the stored one is empty) it returns the configuration
unchanged; in every case the other fields and the other headers of the configuration
are unchanged. -/
theorem request_interceptor_attaches_token (b : Browser) (config : RequestConfig) :
    ((∀ token, getItem "admin_token" b.localStorage = some token → token ≠ "" →
        getHeader "Authorization" (apiRequestInterceptor b config).headers =
          some ("Bearer " ++ token)) ∧
      ((getItem "admin_token" b.localStorage = none ∨
          getItem "admin_token" b.localStorage = some "") →
        apiRequestInterceptor b config = config) ∧
      (apiRequestInterceptor b config).method = config.method ∧
      (apiRequestInterceptor b config).baseURL = config.baseURL ∧
      (apiRequestInterceptor b config).url = config.url ∧
      (apiRequestInterceptor b config).params = config.params ∧
      (apiRequestInterceptor b config).data = config.data ∧
      ∀ name, name ≠ "Authorization" →
        getHeader name (apiRequestInterceptor b config).headers =
          getHeader name config.headers) ∧
    ((∀ token, getItem "admin_token" b.localStorage = some token → token ≠ "" →
        getHeader "Authorization" (apiClientRequestInterceptor b config).headers =
          some ("Bearer " ++ token)) ∧
      ((getItem "admin_token" b.localStorage = none ∨
          getItem "admin_token" b.localStorage = some "") →
        apiClientRequestInterceptor b config = config) ∧
      (apiClientRequestInterceptor b config).method = config.method ∧
      (apiClientRequestInterceptor b config).baseURL = config.baseURL ∧
      (apiClientRequestInterceptor b config).url = config.url ∧
      (apiClientRequestInterceptor b config).params = config.params ∧
      (apiClientRequestInterceptor b config).data = config.data ∧
      ∀ name, name ≠ "Authorization" →
        getHeader name (apiClientRequestInterceptor b config).headers =
          getHeader name config.headers) :=
  ⟨config_after_request (getItem "admin_token" b.localStorage) config
      (apiRequestInterceptor b config) rfl,
    config_after_request (getItem "admin_token" b.localStorage) config
      (apiClientRequestInterceptor b config) rfl⟩

/-- C6, counterexample. The default retry count of the query client is not zero, in
either version of the application. -/
theorem queryClient_retry_ne_zero : queryClient00.retry ≠ 0 ∧ queryClient0.retry ≠ 0 := by
  decide

/-- C6, amended. The query client is configured with the default retry count one, in
both versions of the application: a failed query is issued again once. -/
theorem queryClient_retry_eq_one : queryClient00.retry = 1 ∧ queryClient0.retry = 1 :=
  ⟨rfl, rfl⟩

/-! ## Claims about the single factors of the analyzer -/

theorem unitLen_pos (c : Char) : 0 < unitLen c := by
  unfold unitLen
  split_ifs <;> decide

theorem indexOfFrom_eq_or_ge (needle : JSString) (s : JSString) :
    ∀ i : Nat, indexOfFrom needle s i = -1 ∨ (i : ℤ) ≤ indexOfFrom needle s i := by
  induction s with
  | nil =>
    intro i
    unfold indexOfFrom
    split_ifs
    · exact Or.inr le_rfl
    · exact Or.inl rfl
  | cons h hs ih =>
    intro i
    unfold indexOfFrom
    split_ifs
    · exact Or.inr le_rfl
    · rcases ih (i + unitLen h) with h1 | h1
      · exact Or.inl h1
      · right
        have : (i : ℤ) ≤ ((i + unitLen h : ℕ) : ℤ) := by push_cast; omega
        exact le_trans this h1

/-- The test `indexOf(...) === 0` holds exactly when the needle starts the string. -/
theorem indexOf_eq_zero_iff (hay needle : JSString) :
    indexOf hay needle = 0 ↔ startsWith hay needle = true := by
  unfold indexOf
  cases hay with
  | nil =>
    unfold indexOfFrom
    split_ifs with h
    · simp [h]
    · simp [h]
  | cons h hs =>
    unfold indexOfFrom
    split_ifs with hst
    · simp [hst]
    · simp only [hst, Bool.false_eq_true, iff_false]
      have hpos := unitLen_pos h
      rcases indexOfFrom_eq_or_ge needle hs (0 + unitLen h) with h1 | h1
      · rw [h1]; decide
      · intro h0
        rw [h0] at h1
        have : ((0 + unitLen h : ℕ) : ℤ) ≤ 0 := h1
        have h2 : (0 + unitLen h : ℕ) ≤ 0 := by exact_mod_cast this
        omega

theorem mathRound_eq_of_eq (x : ℚ) (n : ℤ) (h : x = (n : ℚ)) : mathRound x = n := by
  rw [h]
  exact mathRound_intCast n

/-- The score accumulated by the three blocks of `analyzeTitleTag`, as the sum of the
length, presence and position parts. -/
theorem title_blocks_score (lc : JSString → JSString) (t : JSString) (k : JSArg) :
    (titleKeywordPosition lc t k (titleKeywordPresence lc t k
        (titleLengthCheck t Acc.init))).score =
      (if jsLength t < 30 then 20 else if jsLength t > 60 then 60 else 100) +
      (if k.truthy = true ∧ includes (lc t) (lc k.toStr) = true then 100 else 0) +
      (if k.truthy = true ∧ startsWith (lc t) (lc k.toStr) = true then 50
        else if k.truthy = true ∧ includes (lc t) (lc k.toStr) = true then 25 else 0) := by
  have hidx : (indexOf (lc t) (lc k.toStr) == 0) = startsWith (lc t) (lc k.toStr) := by
    by_cases hs : startsWith (lc t) (lc k.toStr) = true
    · rw [hs]
      exact beq_iff_eq.mpr ((indexOf_eq_zero_iff _ _).mpr hs)
    · have hne : ¬ indexOf (lc t) (lc k.toStr) = 0 :=
        fun h0 => hs ((indexOf_eq_zero_iff _ _).mp h0)
      have hf : startsWith (lc t) (lc k.toStr) = false := by simpa using hs
      rw [hf]
      exact beq_eq_false_iff_ne.mpr hne
  unfold titleKeywordPosition titleKeywordPresence titleLengthCheck
  rw [hidx]
  simp only [Acc.init, Bool.and_eq_true]
  split_ifs <;> simp_all


/-- The final score of `analyzeTitleTag` for a non-empty title. -/
theorem analyzeTitleTag_score_of_nonempty (lc : JSString → JSString) (c : Char)
    (cs : JSString) (k : JSArg) :
    (analyzeTitleTag lc (.str (c :: cs)) k).score =
      mathRound (((titleKeywordPosition lc (c :: cs) k (titleKeywordPresence lc (c :: cs) k
        (titleLengthCheck (c :: cs) Acc.init))).score : ℚ) / (5 / 2)) := rfl

/-- The nine values `round(n / 2.5)` can take on the sums `n` of the three parts. -/
theorem title_score_values (L K P : ℤ) (hL : L = 20 ∨ L = 60 ∨ L = 100)
    (hKP : (K = 0 ∧ P = 0) ∨ (K = 100 ∧ P = 25) ∨ (K = 100 ∧ P = 50)) :
    mathRound (((L + K + P : ℤ) : ℚ) / (5 / 2)) ∈
      ([8, 24, 40, 58, 74, 90, 68, 84, 100] : List ℤ) := by
  rcases hL with h | h | h <;> rcases hKP with ⟨h1, h2⟩ | ⟨h1, h2⟩ | ⟨h1, h2⟩ <;>
    subst h h1 h2
  · rw [mathRound_eq_of_eq _ 8 (by norm_num)]; decide
  · rw [mathRound_eq_of_eq _ 58 (by norm_num)]; decide
  · rw [mathRound_eq_of_eq _ 68 (by norm_num)]; decide
  · rw [mathRound_eq_of_eq _ 24 (by norm_num)]; decide
  · rw [mathRound_eq_of_eq _ 74 (by norm_num)]; decide
  · rw [mathRound_eq_of_eq _ 84 (by norm_num)]; decide
  · rw [mathRound_eq_of_eq _ 40 (by norm_num)]; decide
  · rw [mathRound_eq_of_eq _ 90 (by norm_num)]; decide
  · rw [mathRound_eq_of_eq _ 100 (by norm_num)]; decide

/-- C11. For every non-empty title and every keyword, `analyzeTitleTag` returns the score
`round((L + K + P) / 2.5)`, where `L` is 20 for a title of fewer than 30 characters, 60
for more than 60 and 100 otherwise, `K` is 100 if the keyword is non-empty and occurs in
the title after lower-casing both and 0 otherwise, and `P` is 50 if the keyword starts
the title, 25 if it occurs elsewhere and 0 otherwise; the score is one of 8, 24, 40, 58,
74, 90, 68, 84, 100; an empty or missing title gives score 0 with status `error`. -/
theorem analyzeTitleTag_score_formula (lc : JSString → JSString) (c : Char)
    (cs : JSString) (keyword : JSArg) :
    (analyzeTitleTag lc (.str (c :: cs)) keyword).score =
        mathRound
          ((((if jsLength (c :: cs) < 30 then 20
              else if jsLength (c :: cs) > 60 then 60 else 100) +
            (if keyword.truthy = true ∧
                includes (lc (c :: cs)) (lc keyword.toStr) = true then 100 else 0) +
            (if keyword.truthy = true ∧
                startsWith (lc (c :: cs)) (lc keyword.toStr) = true then 50
              else if keyword.truthy = true ∧
                includes (lc (c :: cs)) (lc keyword.toStr) = true then 25 else 0) : ℤ) : ℚ)
            / (5 / 2)) ∧
      (analyzeTitleTag lc (.str (c :: cs)) keyword).score ∈
        ([8, 24, 40, 58, 74, 90, 68, 84, 100] : List ℤ) ∧
      ((analyzeTitleTag lc (.str []) keyword).score = 0 ∧
        (analyzeTitleTag lc (.str []) keyword).status = "error") ∧
      ((analyzeTitleTag lc .undefined keyword).score = 0 ∧
        (analyzeTitleTag lc .undefined keyword).status = "error") ∧
      ((analyzeTitleTag lc .null keyword).score = 0 ∧
        (analyzeTitleTag lc .null keyword).status = "error") := by
  have hscore := analyzeTitleTag_score_of_nonempty lc c cs keyword
  rw [title_blocks_score] at hscore
  refine ⟨hscore, ?_, ⟨rfl, rfl⟩, ⟨rfl, rfl⟩, ⟨rfl, rfl⟩⟩
  rw [hscore]
  apply title_score_values
  · split_ifs <;> simp
  · by_cases hk : keyword.truthy = true ∧ includes (lc (c :: cs)) (lc keyword.toStr) = true
    · by_cases hs : keyword.truthy = true ∧
          startsWith (lc (c :: cs)) (lc keyword.toStr) = true
      · simp [hk, hs]
      · simp [hk, hs]
    · have hs : ¬ (keyword.truthy = true ∧
          startsWith (lc (c :: cs)) (lc keyword.toStr) = true) :=
        fun h => hk ⟨h.1, includes_of_startsWith _ _ h.2⟩
      simp [hk, hs]


/-- C12, failing input. The content made of 299 times "a " has 299 words (maximal runs of
characters that are not white space), yet `split(/\s+/)` yields a 300th, empty piece
after the trailing space: the factor reports `wordCount` 300 and scores 70 without the
issue 'Content too short'.  Likewise "a " has one word and is reported with
`wordCount` 2. -/
theorem contentLength_counts_empty_piece :
    countWords (List.replicate 299 ['a', ' ']).flatten = 299 ∧
      (contentLengthFactor (.str (List.replicate 299 ['a', ' ']).flatten)).details =
        .wordCount 300 ∧
      (contentLengthFactor (.str (List.replicate 299 ['a', ' ']).flatten)).score = 70 ∧
      (contentLengthFactor (.str (List.replicate 299 ['a', ' ']).flatten)).issues = [] ∧
      countWords "a ".toList = 1 ∧
      (contentLengthFactor (.str "a ".toList)).details = .wordCount 2 := by
  set_option maxRecDepth 100000 in
  decide

/-- C13, failing input. The lower-cased content "marrakech travel guide" contains the
lower-cased keyword "travel guide", yet no piece of `split(/\s+/)` contains it, so
`analyzeKeywordUsage` reports 'Target keyword not found in content' with score 0 and
count 0. -/
theorem keyword_with_space_reported_not_found :
    includes (asciiLower "marrakech travel guide".toList)
        (asciiLower "travel guide".toList) = true ∧
      (analyzeKeywordUsage asciiLower (.str "marrakech travel guide".toList)
        (.str "travel guide".toList)).issues = ["Target keyword not found in content".toList] ∧
      (analyzeKeywordUsage asciiLower (.str "marrakech travel guide".toList)
        (.str "travel guide".toList)).score = 0 ∧
      (analyzeKeywordUsage asciiLower (.str "marrakech travel guide".toList)
        (.str "travel guide".toList)).details = .keyword 0 0 := by
  have hc : keywordCount asciiLower "marrakech travel guide".toList "travel guide".toList
      = 0 := by decide
  have hd : keywordDensityOf asciiLower "marrakech travel guide".toList
      "travel guide".toList = 0 := by
    simp only [keywordDensityOf, hc]
    norm_num
  have hi : (analyzeKeywordUsage asciiLower (.str "marrakech travel guide".toList)
      (.str "travel guide".toList)).issues =
      (keywordUsageCheck (keywordDensityOf asciiLower "marrakech travel guide".toList
        "travel guide".toList) "travel guide".toList).issues := rfl
  have hs : (analyzeKeywordUsage asciiLower (.str "marrakech travel guide".toList)
      (.str "travel guide".toList)).score =
      (keywordUsageCheck (keywordDensityOf asciiLower "marrakech travel guide".toList
        "travel guide".toList) "travel guide".toList).score := rfl
  have hdt : (analyzeKeywordUsage asciiLower (.str "marrakech travel guide".toList)
      (.str "travel guide".toList)).details =
      .keyword (keywordDensityOf asciiLower "marrakech travel guide".toList
        "travel guide".toList)
        (keywordCount asciiLower "marrakech travel guide".toList "travel guide".toList) :=
    rfl
  refine ⟨by decide, ?_, ?_, ?_⟩
  · rw [hi, hd]
    simp [keywordUsageCheck]
  · rw [hs, hd]
    simp [keywordUsageCheck]
  · rw [hdt, hd, hc]

theorem keywordCount_le (lc : JSString → JSString) (content keyword : JSString) :
    keywordCount lc content keyword ≤ (splitWhitespace (lc content)).length :=
  List.length_filter_le _ _

theorem keywordDensityOf_bounds (lc : JSString → JSString) (content keyword : JSString) :
    0 ≤ keywordDensityOf lc content keyword ∧ keywordDensityOf lc content keyword ≤ 100 := by
  have hpos : (0 : ℚ) < ((splitWhitespace (lc content)).length : ℚ) := by
    exact_mod_cast splitWhitespace_length_pos (lc content)
  have hle : (keywordCount lc content keyword : ℚ) ≤
      ((splitWhitespace (lc content)).length : ℚ) := by
    exact_mod_cast keywordCount_le lc content keyword
  have h0 : (0 : ℚ) ≤ (keywordCount lc content keyword : ℚ) := Nat.cast_nonneg _
  unfold keywordDensityOf
  constructor
  · exact mul_nonneg (div_nonneg h0 hpos.le) (by norm_num)
  · have h1 : (keywordCount lc content keyword : ℚ) /
        ((splitWhitespace (lc content)).length : ℚ) ≤ 1 := (div_le_one hpos).mpr hle
    linarith

/-- C14. For every non-empty content and non-empty keyword, the density
`d = 100 * (pieces of the lower-cased content that contain the lower-cased keyword) /
(pieces)` lies between 0 and 100, and `analyzeKeywordUsage` scores 0 when `d = 0`, 40
with 'Keyword density too low' when `0 < d < 0.5`, 50 with the keyword-stuffing issue
when `d > 3`, and 100 exactly when `0.5 ≤ d ≤ 3`. -/
theorem analyzeKeywordUsage_density_bands (lc : JSString → JSString) (c : Char)
    (cs : JSString) (k : Char) (ks : JSString) :
    keywordDensityOf lc (c :: cs) (k :: ks) =
        100 * (((splitWhitespace (lc (c :: cs))).filter
          (fun word => includes word (lc (k :: ks)))).length : ℚ) /
          ((splitWhitespace (lc (c :: cs))).length : ℚ) ∧
      0 ≤ keywordDensityOf lc (c :: cs) (k :: ks) ∧
      keywordDensityOf lc (c :: cs) (k :: ks) ≤ 100 ∧
      (keywordDensityOf lc (c :: cs) (k :: ks) = 0 →
        (analyzeKeywordUsage lc (.str (c :: cs)) (.str (k :: ks))).score = 0) ∧
      (0 < keywordDensityOf lc (c :: cs) (k :: ks) ∧
          keywordDensityOf lc (c :: cs) (k :: ks) < 1 / 2 →
        (analyzeKeywordUsage lc (.str (c :: cs)) (.str (k :: ks))).score = 40 ∧
        (analyzeKeywordUsage lc (.str (c :: cs)) (.str (k :: ks))).issues =
          ["Keyword density too low".toList]) ∧
      (3 < keywordDensityOf lc (c :: cs) (k :: ks) →
        (analyzeKeywordUsage lc (.str (c :: cs)) (.str (k :: ks))).score = 50 ∧
        (analyzeKeywordUsage lc (.str (c :: cs)) (.str (k :: ks))).issues =
          ["Keyword density too high (keyword stuffing)".toList]) ∧
      ((analyzeKeywordUsage lc (.str (c :: cs)) (.str (k :: ks))).score = 100 ↔
        (1 / 2 ≤ keywordDensityOf lc (c :: cs) (k :: ks) ∧
          keywordDensityOf lc (c :: cs) (k :: ks) ≤ 3)) := by
  have hb := keywordDensityOf_bounds lc (c :: cs) (k :: ks)
  have hs : (analyzeKeywordUsage lc (.str (c :: cs)) (.str (k :: ks))).score =
      (keywordUsageCheck (keywordDensityOf lc (c :: cs) (k :: ks)) (k :: ks)).score := rfl
  have hi : (analyzeKeywordUsage lc (.str (c :: cs)) (.str (k :: ks))).issues =
      (keywordUsageCheck (keywordDensityOf lc (c :: cs) (k :: ks)) (k :: ks)).issues := rfl
  have hdef : keywordDensityOf lc (c :: cs) (k :: ks) =
      100 * (((splitWhitespace (lc (c :: cs))).filter
        (fun word => includes word (lc (k :: ks)))).length : ℚ) /
        ((splitWhitespace (lc (c :: cs))).length : ℚ) := by
    unfold keywordDensityOf keywordCount
    ring
  refine ⟨hdef, hb.1, hb.2, ?_⟩
  rw [hs, hi]
  generalize keywordDensityOf lc (c :: cs) (k :: ks) = d
  refine ⟨?_, ?_, ?_, ?_⟩
  · intro h0
    unfold keywordUsageCheck
    rw [if_pos h0]
  · rintro ⟨h0, h1⟩
    have hne : ¬ d = 0 := ne_of_gt h0
    unfold keywordUsageCheck
    rw [if_neg hne, if_pos h1]
    exact ⟨rfl, rfl⟩
  · intro h3
    have hne : ¬ d = 0 := by intro h; rw [h] at h3; norm_num at h3
    have hnl : ¬ d < 1 / 2 := by intro h; linarith
    unfold keywordUsageCheck
    rw [if_neg hne, if_neg hnl, if_pos h3]
    exact ⟨rfl, rfl⟩
  · unfold keywordUsageCheck
    split_ifs with h0 h1 h2
    · subst h0
      norm_num
    · simp only [show ¬ ((40 : ℤ) = 100) by decide, false_iff]
      intro h
      linarith [h.1]
    · simp only [show ¬ ((50 : ℤ) = 100) by decide, false_iff]
      intro h
      linarith [h.2]
    · simp only [true_iff]
      exact ⟨not_lt.mp h1, not_lt.mp h2⟩


/-! ## Claims about readability and recommendations -/

/-- The comparison `a / b > t` of `analyzeReadability`, cleared of the quotient; for
`b = 0` the quotient is `Infinity`. -/
theorem quotientExceeds_iff (a b t : ℕ) (ha : 0 < a) :
    quotientExceeds a b (t : ℚ) = true ↔ t * b < a := by
  unfold quotientExceeds
  split_ifs with hb
  · subst hb
    simpa using ha
  · have hbq : (0 : ℚ) < (b : ℚ) := by exact_mod_cast Nat.pos_of_ne_zero hb
    rw [decide_eq_true_iff, gt_iff_lt, lt_div_iff₀ hbq]
    exact_mod_cast Iff.rfl

/-- The comparison `(c / w) * 100 > t` of `analyzeReadability`, cleared of the
quotient. -/
theorem ratioExceeds_iff (c w t : ℕ) (hw : 0 < w) :
    ((c : ℚ) / (w : ℚ)) * 100 > (t : ℚ) ↔ t * w < 100 * c := by
  have hwq : (0 : ℚ) < (w : ℚ) := by exact_mod_cast hw
  rw [gt_iff_lt, div_mul_eq_mul_div, lt_div_iff₀ hwq]
  constructor
  · intro h
    have h' : ((t * w : ℕ) : ℚ) < ((100 * c : ℕ) : ℚ) := by push_cast; linarith
    exact_mod_cast h'
  · intro h
    have h' : ((t * w : ℕ) : ℚ) < ((100 * c : ℕ) : ℚ) := by exact_mod_cast h
    push_cast at h'
    linarith

/-- The value computed by the body of `analyzeReadability` from the numbers of words,
sentences and long words. -/
theorem readability_value (W S C : ℕ) (hW : 0 < W) :
    max (0 : ℤ) (min 100
        ((if ((C : ℚ) / (W : ℚ)) * 100 > 15 then
            (if quotientExceeds W S 20 = true then (100 : ℤ) - 20
              else if quotientExceeds W S 15 = true then 100 - 10 else 100) - 20
          else if ((C : ℚ) / (W : ℚ)) * 100 > 10 then
            (if quotientExceeds W S 20 = true then (100 : ℤ) - 20
              else if quotientExceeds W S 15 = true then 100 - 10 else 100) - 10
          else
            (if quotientExceeds W S 20 = true then (100 : ℤ) - 20
              else if quotientExceeds W S 15 = true then 100 - 10 else 100)))) =
      100 - (if 20 * S < W then 20 else if 15 * S < W then 10 else 0) -
        (if 15 * W < 100 * C then 20 else if 10 * W < 100 * C then 10 else 0) := by
  have q20 := quotientExceeds_iff W S 20 hW
  have q15 := quotientExceeds_iff W S 15 hW
  have r15 := ratioExceeds_iff C W 15 hW
  have r10 := ratioExceeds_iff C W 10 hW
  simp only [Nat.cast_ofNat] at q20 q15 r15 r10
  simp only [q20, q15, r15, r10]
  split_ifs <;> decide


/-- The value of `analyzeReadability` in the numbers the code counts: 0 for empty or
missing content; for a non-empty content, with `W` pieces of `split(/\s+/)` (empty
pieces at the ends included), `S` non-blank sentence pieces and `C` pieces longer than 8
characters, 100 minus 20 (10) when `W / S` exceeds 20 (15), minus 20 (10) when
`100 * C / W` exceeds 15 (10); the value is one of 60, 70, 80, 90, 100 and the final
clamp does not change it.  For `S = 0` the quotient is `Infinity`. -/
theorem analyzeReadability_value (c : Char) (cs : JSString) :
    analyzeReadability .undefined = 0 ∧ analyzeReadability .null = 0 ∧
      analyzeReadability (.str []) = 0 ∧
      analyzeReadability (.str (c :: cs)) =
        100 -
          (if 20 * ((splitRuns isSentenceEnd (c :: cs)).filter
                (fun s => jsLength (trim s) > 0)).length <
              (splitWhitespace (c :: cs)).length then 20
            else if 15 * ((splitRuns isSentenceEnd (c :: cs)).filter
                (fun s => jsLength (trim s) > 0)).length <
              (splitWhitespace (c :: cs)).length then 10
            else 0) -
          (if 15 * (splitWhitespace (c :: cs)).length <
              100 * ((splitWhitespace (c :: cs)).filter
                (fun word => jsLength word > 8)).length then 20
            else if 10 * (splitWhitespace (c :: cs)).length <
              100 * ((splitWhitespace (c :: cs)).filter
                (fun word => jsLength word > 8)).length then 10
            else 0) ∧
      analyzeReadability (.str (c :: cs)) ∈ ([60, 70, 80, 90, 100] : List ℤ) ∧
      0 ≤ analyzeReadability (.str (c :: cs)) ∧ analyzeReadability (.str (c :: cs)) ≤ 100 := by
  have hW := splitWhitespace_length_pos (c :: cs)
  have hv := readability_value (splitWhitespace (c :: cs)).length
    ((splitRuns isSentenceEnd (c :: cs)).filter (fun s => jsLength (trim s) > 0)).length
    ((splitWhitespace (c :: cs)).filter (fun word => jsLength word > 8)).length hW
  have heq : analyzeReadability (.str (c :: cs)) =
      100 -
        (if 20 * ((splitRuns isSentenceEnd (c :: cs)).filter
              (fun s => jsLength (trim s) > 0)).length <
            (splitWhitespace (c :: cs)).length then 20
          else if 15 * ((splitRuns isSentenceEnd (c :: cs)).filter
              (fun s => jsLength (trim s) > 0)).length <
            (splitWhitespace (c :: cs)).length then 10
          else 0) -
        (if 15 * (splitWhitespace (c :: cs)).length <
            100 * ((splitWhitespace (c :: cs)).filter
              (fun word => jsLength word > 8)).length then 20
          else if 10 * (splitWhitespace (c :: cs)).length <
            100 * ((splitWhitespace (c :: cs)).filter
              (fun word => jsLength word > 8)).length then 10
          else 0) := by
    rw [← hv]
    rfl
  refine ⟨rfl, rfl, rfl, heq, ?_, ?_, ?_⟩
  · rw [heq]
    split_ifs <;> decide
  · rw [heq]
    split_ifs <;> decide
  · rw [heq]
    split_ifs <;> decide


/-- C15, failing input. The content of twenty words "a" in one sentence followed by a
space has 20 words and one sentence, an average of 20 words per sentence, for which the
claimed value is 100 - 10 = 90; the code counts the empty piece after the trailing space
as a 21st word, finds an average above 20 and returns 80.  Without the trailing space
it returns 90. -/
theorem readability_counts_empty_piece :
    countWords "a a a a a a a a a a a a a a a a a a a a. ".toList = 20 ∧
      ((splitRuns isSentenceEnd "a a a a a a a a a a a a a a a a a a a a. ".toList).filter
        (fun s => jsLength (trim s) > 0)).length = 1 ∧
      (splitWhitespace "a a a a a a a a a a a a a a a a a a a a. ".toList).length = 21 ∧
      analyzeReadability (.str "a a a a a a a a a a a a a a a a a a a a. ".toList) = 80 ∧
      analyzeReadability (.str "a a a a a a a a a a a a a a a a a a a a.".toList) = 90 := by
  have hS : ((splitRuns isSentenceEnd
      ('a' :: " a a a a a a a a a a a a a a a a a a a. ".toList)).filter
      (fun s => jsLength (trim s) > 0)).length = 1 := by decide
  have hW : (splitWhitespace
      ('a' :: " a a a a a a a a a a a a a a a a a a a. ".toList)).length = 21 := by decide
  have hC : ((splitWhitespace
      ('a' :: " a a a a a a a a a a a a a a a a a a a. ".toList)).filter
      (fun word => jsLength word > 8)).length = 0 := by decide
  have hv := (analyzeReadability_value 'a'
    " a a a a a a a a a a a a a a a a a a a. ".toList).2.2.2.1
  rw [hS, hW, hC] at hv
  have hS' : ((splitRuns isSentenceEnd
      ('a' :: " a a a a a a a a a a a a a a a a a a a.".toList)).filter
      (fun s => jsLength (trim s) > 0)).length = 1 := by decide
  have hW' : (splitWhitespace
      ('a' :: " a a a a a a a a a a a a a a a a a a a.".toList)).length = 20 := by decide
  have hC' : ((splitWhitespace
      ('a' :: " a a a a a a a a a a a a a a a a a a a.".toList)).filter
      (fun word => jsLength word > 8)).length = 0 := by decide
  have hv' := (analyzeReadability_value 'a'
    " a a a a a a a a a a a a a a a a a a a.".toList).2.2.2.1
  rw [hS', hW', hC'] at hv'
  refine ⟨by decide, by decide, by decide, ?_, ?_⟩
  · exact hv
  · exact hv'

theorem firstIndex_cons_of_ne (s t : JSString) (ts : List JSString) (h : ¬ t = s) :
    firstIndex s (t :: ts) = firstIndex s ts + 1 := by
  show (if t = s then 0 else firstIndex s ts + 1) = firstIndex s ts + 1
  rw [if_neg h]

theorem firstIndex_append_of_mem (s : JSString) (p q : List JSString) (h : s ∈ p) :
    firstIndex s (p ++ q) = firstIndex s p ∧ firstIndex s p < p.length := by
  induction p with
  | nil => exact absurd h (List.not_mem_nil _)
  | cons t ts ih =>
    by_cases hts : t = s
    · simp [firstIndex, hts]
    · have hmem : s ∈ ts := by
        rcases List.mem_cons.mp h with h1 | h1
        · exact absurd h1.symm hts
        · exact h1
      obtain ⟨e, l⟩ := ih hmem
      rw [List.cons_append, firstIndex_cons_of_ne _ _ _ hts, firstIndex_cons_of_ne _ _ _ hts,
        e, List.length_cons]
      exact ⟨rfl, by omega⟩

theorem firstIndex_append_of_not_mem (s : JSString) (p q : List JSString) (h : s ∉ p) :
    firstIndex s (p ++ q) = p.length + firstIndex s q := by
  induction p with
  | nil => simp
  | cons t ts ih =>
    have hts : ¬ t = s := fun e => h (e ▸ List.mem_cons_self _ _)
    have hmem : s ∉ ts := fun e => h (List.mem_cons_of_mem _ e)
    rw [List.cons_append, firstIndex_cons_of_ne _ _ _ hts, ih hmem, List.length_cons]
    omega

/-- The step of `uniqueInOrder`. -/
theorem uniqueInOrder_foldl_mem (xs : List JSString) :
    ∀ (acc : List JSString) (s : JSString),
      s ∈ xs.foldl (fun acc x => if x ∈ acc then acc else acc ++ [x]) acc ↔
        s ∈ acc ∨ s ∈ xs := by
  induction xs with
  | nil => intro acc s; simp
  | cons y ys ih =>
    intro acc s
    rw [List.foldl_cons, ih]
    split_ifs with hy
    · constructor
      · rintro (h | h)
        · exact Or.inl h
        · exact Or.inr (List.mem_cons_of_mem _ h)
      · rintro (h | h)
        · exact Or.inl h
        · rcases List.mem_cons.mp h with h | h
          · exact Or.inl (h ▸ hy)
          · exact Or.inr h
    · simp only [List.mem_append, List.mem_singleton, List.mem_cons]
      tauto

theorem uniqueInOrder_foldl_nodup (xs : List JSString) :
    ∀ (acc : List JSString), acc.Nodup →
      (xs.foldl (fun acc x => if x ∈ acc then acc else acc ++ [x]) acc).Nodup := by
  induction xs with
  | nil => intro acc h; exact h
  | cons y ys ih =>
    intro acc h
    rw [List.foldl_cons]
    apply ih
    split_ifs with hy
    · exact h
    · rw [List.nodup_append]
      refine ⟨h, List.nodup_singleton _, ?_⟩
      intro a ha hb
      rw [List.mem_singleton] at hb
      exact hy (hb ▸ ha)

/-- The elements kept by `uniqueInOrder` appear in the order of their first occurrences:
`p` is the part of the input already read and `acc` what was kept of it. -/
theorem uniqueInOrder_foldl_order (xs : List JSString) :
    ∀ (p acc : List JSString), (∀ s, s ∈ acc ↔ s ∈ p) →
      (acc.map (fun s => firstIndex s (p ++ xs))).Pairwise (fun i j => i < j) →
      ((xs.foldl (fun acc x => if x ∈ acc then acc else acc ++ [x]) acc).map
        (fun s => firstIndex s (p ++ xs))).Pairwise (fun i j => i < j) := by
  induction xs with
  | nil => intro p acc _ h; exact h
  | cons y ys ih =>
    intro p acc hmem hpw
    have happ : p ++ y :: ys = (p ++ [y]) ++ ys := by simp
    rw [List.foldl_cons, happ]
    rw [happ] at hpw
    split_ifs with hy
    · apply ih (p ++ [y]) acc _ hpw
      intro s
      rw [hmem s, List.mem_append, List.mem_singleton]
      constructor
      · exact Or.inl
      · rintro (h | h)
        · exact h
        · rw [h]; exact (hmem y).mp hy
    · apply ih (p ++ [y]) (acc ++ [y])
      · intro s
        simp only [List.mem_append, List.mem_singleton, hmem s]
      · rw [List.map_append, List.pairwise_append]
        refine ⟨hpw, by simp, ?_⟩
        intro i hi j hj
        rw [List.mem_map] at hi hj
        obtain ⟨a, ha, rfl⟩ := hi
        obtain ⟨b, hb, rfl⟩ := hj
        rw [List.mem_singleton] at hb
        subst hb
        have hap : a ∈ p := (hmem a).mp ha
        have hbp : b ∉ p := fun h => hy ((hmem b).mpr h)
        have h1 : firstIndex a (p ++ [b] ++ ys) < p.length := by
          rw [List.append_assoc, (firstIndex_append_of_mem a p _ hap).1]
          exact (firstIndex_append_of_mem a p [] hap).2
        have h2 : firstIndex b (p ++ [b] ++ ys) = p.length := by
          rw [List.append_assoc, firstIndex_append_of_not_mem b p _ hbp]
          simp [firstIndex]
        omega

theorem uniqueInOrder_mem (xs : List JSString) (s : JSString) :
    s ∈ uniqueInOrder xs ↔ s ∈ xs := by
  unfold uniqueInOrder
  rw [uniqueInOrder_foldl_mem]
  simp

theorem uniqueInOrder_nodup (xs : List JSString) : (uniqueInOrder xs).Nodup :=
  uniqueInOrder_foldl_nodup xs [] List.nodup_nil

theorem uniqueInOrder_order (xs : List JSString) :
    ((uniqueInOrder xs).map (fun s => firstIndex s xs)).Pairwise (fun i j => i < j) := by
  have h := uniqueInOrder_foldl_order xs [] [] (fun _ => Iff.rfl) List.Pairwise.nil
  simpa [uniqueInOrder] using h

theorem factor_recommendations_mem (fs : List Factor) :
    ∀ (acc : List JSString) (s : JSString),
      s ∈ fs.foldl
          (fun recs factor =>
            if factor.score < 80 then recs ++ factor.recommendations else recs) acc ↔
        s ∈ acc ∨ ∃ f ∈ fs, f.score < 80 ∧ s ∈ f.recommendations := by
  induction fs with
  | nil => intro acc s; simp
  | cons g gs ih =>
    intro acc s
    rw [List.foldl_cons, ih]
    split_ifs with hg
    · simp only [List.mem_append, List.mem_cons, exists_eq_or_imp]
      constructor
      · rintro ((h | h) | h)
        · exact Or.inl h
        · exact Or.inr (Or.inl ⟨hg, h⟩)
        · exact Or.inr (Or.inr h)
      · rintro (h | ⟨_, h⟩ | h)
        · exact Or.inl (Or.inl h)
        · exact Or.inl (Or.inr h)
        · exact Or.inr h
    · simp only [List.mem_cons, exists_eq_or_imp]
      constructor
      · rintro (h | h)
        · exact Or.inl h
        · exact Or.inr (Or.inr h)
      · rintro (h | ⟨h, _⟩ | h)
        · exact Or.inl h
        · exact absurd h hg
        · exact Or.inr h

theorem generateRecommendations_eq (a : Analysis) :
    generateRecommendations a = uniqueInOrder (collectedRecommendations a) := by
  unfold generateRecommendations collectedRecommendations
  split_ifs <;> simp

/-- C16. For every analysis, `generateRecommendations` returns a list without duplicate
entries that contains a string if and only if it is a recommendation of a factor scoring
below 80, or one of the two general recommendations when `overallScore < 70`, or the
readability recommendation when `readabilityScore < 70`; its entries are in the order
of their first occurrences in the collected list. -/
theorem generateRecommendations_unique_in_order (a : Analysis) :
    (generateRecommendations a).Nodup ∧
      (∀ s, s ∈ generateRecommendations a ↔
        ((∃ f ∈ a.factors, f.score < 80 ∧ s ∈ f.recommendations) ∨
          (a.overallScore < 70 ∧
            (s = "Focus on improving content quality and keyword optimization".toList ∨
              s = "Consider competitor analysis to identify content gaps".toList)) ∨
          (a.readabilityScore < 70 ∧
            s = "Improve readability by using shorter sentences and simpler words".toList))) ∧
      ((generateRecommendations a).map
        (fun s => firstIndex s (collectedRecommendations a))).Pairwise
          (fun i j => i < j) := by
  rw [generateRecommendations_eq]
  refine ⟨uniqueInOrder_nodup _, ?_, uniqueInOrder_order _⟩
  intro s
  rw [uniqueInOrder_mem]
  unfold collectedRecommendations
  rw [List.mem_append, List.mem_append, factor_recommendations_mem]
  constructor
  · rintro (((h | h) | h) | h)
    · exact absurd h (List.not_mem_nil _)
    · exact Or.inl h
    · split_ifs at h with ho
      · right; left
        refine ⟨ho, ?_⟩
        simpa using h
      · exact absurd h (List.not_mem_nil _)
    · split_ifs at h with hr
      · right; right
        refine ⟨hr, ?_⟩
        simpa using h
      · exact absurd h (List.not_mem_nil _)
  · rintro (h | ⟨ho, h⟩ | ⟨hr, h⟩)
    · exact Or.inl (Or.inl (Or.inr h))
    · left; right
      rw [if_pos ho]
      simpa using h
    · right
      rw [if_pos hr]
      simpa using h


/-! ## Claims about the CSV export -/

theorem count_comma_joinWith_six (a b c d e f : JSString) :
    (joinWith [','] [a, b, c, d, e, f]).count ',' =
      a.count ',' + b.count ',' + c.count ',' + d.count ',' + e.count ',' + f.count ','
        + 5 := by
  simp [joinWith, List.count_append, List.count_cons]
  omega

theorem fieldCount_csvRow_ge (k : MockKeyword) (h : 1 ≤ k.keyword.count ',') :
    7 ≤ fieldCount (joinWith [','] (csvRow k)) := by
  unfold fieldCount csvRow
  rw [count_comma_joinWith_six]
  omega

theorem generateMockKeywords_keyword_mem (baseTerm : JSString) (random : Nat → ℚ)
    (e : MockKeyword) (he : e ∈ generateMockKeywords baseTerm random) :
    e.keyword ∈ variations baseTerm := by
  have h := mapVariations_keywords random (variations baseTerm) 0
  have hm : e.keyword ∈ (generateMockKeywords baseTerm random).map (fun e => e.keyword) :=
    List.mem_map_of_mem _ he
  unfold generateMockKeywords at hm
  rw [h] at hm
  exact hm

/-- The binary64 values that `generateMockKeywords` computes from the draw 1/2. -/
theorem binary64_products_at_half :
    toBinary64 (1 / 2 * 10000) = 5000 ∧ toBinary64 (1 / 2 * 100) = 50 ∧
      toBinary64 (1 / 2 * 3) = 3 / 2 ∧ toBinary64 (1 / 2 * 4) = 2 ∧
      toBinary64 (toBinary64 (1 / 2 * 5) + toBinary64 (1 / 10)) =
        5854679515581645 / 2 ^ 51 := by
  have b1 : toBinary64 (1 / 2 * 10000) = 5000 := by
    rw [toBinary64_eq (1 / 2 * 10000) 12 (5000 * 2 ^ 40) (by norm_num) (by norm_num)
      (by norm_num) (by norm_num) (by rw [abs_lt]; constructor <;> norm_num)]
    norm_num
  have b2 : toBinary64 (1 / 2 * 100) = 50 := by
    rw [toBinary64_eq (1 / 2 * 100) 5 (50 * 2 ^ 47) (by norm_num) (by norm_num)
      (by norm_num) (by norm_num) (by rw [abs_lt]; constructor <;> norm_num)]
    norm_num
  have b3 : toBinary64 (1 / 2 * 3) = 3 / 2 := by
    rw [toBinary64_eq (1 / 2 * 3) 0 (3 * 2 ^ 51) (by norm_num) (by norm_num)
      (by norm_num) (by norm_num) (by rw [abs_lt]; constructor <;> norm_num)]
    norm_num
  have b4 : toBinary64 (1 / 2 * 4) = 2 := by
    rw [toBinary64_eq (1 / 2 * 4) 1 (2 ^ 52) (by norm_num) (by norm_num)
      (by norm_num) (by norm_num) (by rw [abs_lt]; constructor <;> norm_num)]
    norm_num
  have b5 : toBinary64 (1 / 2 * 5) = 5 / 2 := by
    rw [toBinary64_eq (1 / 2 * 5) 1 (5 * 2 ^ 50) (by norm_num) (by norm_num)
      (by norm_num) (by norm_num) (by rw [abs_lt]; constructor <;> norm_num)]
    norm_num
  have b6 : toBinary64 (1 / 10) = 7205759403792794 / 2 ^ 56 := by
    rw [toBinary64_eq (1 / 10) (-4) 7205759403792794 (by norm_num) (by norm_num)
      (by norm_num) (by norm_num) (by rw [abs_lt]; constructor <;> norm_num)]
    norm_num
  have b7 : toBinary64 (5 / 2 + 7205759403792794 / 2 ^ 56) =
      5854679515581645 / 2 ^ 51 := by
    rw [toBinary64_eq (5 / 2 + 7205759403792794 / 2 ^ 56) 1 5854679515581645
      (by norm_num) (by norm_num) (by norm_num) (by norm_num)
      (by rw [abs_lt]; constructor <;> norm_num)]
    norm_num
  refine ⟨b1, b2, b3, b4, ?_⟩
  rw [b5, b6, b7]

/-- The row of the first keyword for the seed term "a,b" when every draw is 1/2. -/
theorem csvRow_at_half :
    csvRow (mockKeywordOf "a,b".toList (1 / 2) (1 / 2) (1 / 2) (1 / 2) (1 / 2) (1 / 2)) =
      ["a,b".toList, "5100".toList, "50".toList, "2.60".toList, "Medium".toList,
       "Transactional".toList] := by
  obtain ⟨b1, b2, b3, b4, b5⟩ := binary64_products_at_half
  have f1 : ⌊(5000 : ℚ)⌋ = 5000 := by
    rw [Int.floor_eq_iff]; norm_num
  have f2 : ⌊(50 : ℚ)⌋ = 50 := by
    rw [Int.floor_eq_iff]; norm_num
  have f3 : ⌊(3 / 2 : ℚ)⌋ = 1 := by
    rw [Int.floor_eq_iff]; norm_num
  have f4 : ⌊(2 : ℚ)⌋ = 2 := by
    rw [Int.floor_eq_iff]; norm_num
  have h : ⌊|(5854679515581645 / 2 ^ 51 : ℚ)| * 100 + 1 / 2⌋ = 260 := by
    rw [Int.floor_eq_iff]; norm_num [abs_of_pos]
  have hlt : ¬ ((5854679515581645 / 2 ^ 51 : ℚ) < 0) := by norm_num
  have hfix : toFixed2 (5854679515581645 / 2 ^ 51) = "2.60".toList := by
    simp only [toFixed2, h, hlt, if_false]
    decide
  simp only [csvRow, mockKeywordOf, b1, b2, b3, b4, b5, f1, f2, f3, f4, hfix]
  decide

/-- C17, failing input. For the search term "a,b" every data line of the CSV text has at
least seven comma-separated fields, whatever the random draws, while the header line has
six; with every draw equal to 1/2 the first data line is
"a,b,5100,50,2.60,Medium,Transactional". -/
theorem exportKeywords_comma_in_keyword (random : Nat → ℚ) :
    (csvLines (generateMockKeywords "a,b".toList random)).head? =
        some "Keyword,Search Volume,Difficulty,CPC,Competition,Intent".toList ∧
      fieldCount "Keyword,Search Volume,Difficulty,CPC,Competition,Intent".toList = 6 ∧
      (csvLines (generateMockKeywords "a,b".toList random)).tail.all
        (fun line => decide (7 ≤ fieldCount line)) = true ∧
      (csvLines (generateMockKeywords "a,b".toList (fun _ => 1 / 2))).get? 1 =
        some "a,b,5100,50,2.60,Medium,Transactional".toList ∧
      fieldCount "a,b,5100,50,2.60,Medium,Transactional".toList = 7 := by
  refine ⟨by rfl, by decide, ?_, ?_, by decide⟩
  · rw [List.all_eq_true]
    intro line hline
    have hl : line ∈ (generateMockKeywords "a,b".toList random).map
        (fun k => joinWith [','] (csvRow k)) := by
      simpa [csvLines, csvRows] using hline
    obtain ⟨e, he, rfl⟩ := List.mem_map.mp hl
    have hk := generateMockKeywords_keyword_mem _ _ e he
    have hall : (variations "a,b".toList).all (fun k => decide (1 ≤ k.count ',')) = true := by
      decide
    have h1 : 1 ≤ e.keyword.count ',' := by
      have := (List.all_eq_true.mp hall) _ hk
      simpa using this
    exact decide_eq_true (fieldCount_csvRow_ge e h1)
  · have hrow : (csvLines (generateMockKeywords "a,b".toList (fun _ => 1 / 2))).get? 1 =
        some (joinWith [',']
          (csvRow (mockKeywordOf "a,b".toList (1 / 2) (1 / 2) (1 / 2) (1 / 2) (1 / 2)
            (1 / 2)))) := rfl
    rw [hrow, csvRow_at_half]
    decide


/-! ## Claims about the authentication utilities -/

section AuthFacts

variable (jsonParse : String → Except JSError JSValue)

theorem getUser_of_absent (b : Browser) (h : getItem "admin_user" b.localStorage = none) :
    authUtils.getUser jsonParse b = (b, .ok .null) := by
  unfold authUtils.getUser
  rw [show AUTH_USER_KEY = "admin_user" from rfl, h]

theorem getUser_of_stored (b : Browser) (u : String)
    (h : getItem "admin_user" b.localStorage = some u) (hu : u ≠ "") :
    authUtils.getUser jsonParse b = (b, jsonParse u) := by
  unfold authUtils.getUser
  rw [show AUTH_USER_KEY = "admin_user" from rfl, h]
  exact if_pos hu

theorem getUser_of_empty (b : Browser)
    (h : getItem "admin_user" b.localStorage = some "") :
    authUtils.getUser jsonParse b = (b, .ok .null) := by
  unfold authUtils.getUser
  rw [show AUTH_USER_KEY = "admin_user" from rfl, h]
  exact if_neg (fun hne => hne rfl)

/-- The result of `isAuthenticated` once `getUser` has returned the value `user`. -/
theorem isAuthenticated_of_user (b : Browser) (user : JSValue)
    (h : authUtils.getUser jsonParse b = (b, .ok user)) :
    authUtils.isAuthenticated jsonParse b =
      (b, .ok (match getItem "admin_token" b.localStorage with
        | some token => decide (token ≠ "") && user.truthy
        | none => false)) := by
  unfold authUtils.isAuthenticated authUtils.getToken
  simp only [h]
  rfl

end AuthFacts


/-- C18. In every storage state in which `admin_user` is absent or holds valid JSON,
`authUtils.isAuthenticated()` returns, and returns true if and only if a non-empty
`admin_token` is stored and the stored `admin_user` parses to a truthy value; storage
and location are unchanged.  The empty text is not valid JSON (`hempty`). -/
theorem isAuthenticated_iff_token_and_user (jsonParse : String → Except JSError JSValue)
    (b : Browser) (hempty : ∀ v, jsonParse "" ≠ .ok v)
    (hvalid : getItem "admin_user" b.localStorage = none ∨
      ∃ u v, getItem "admin_user" b.localStorage = some u ∧ jsonParse u = .ok v) :
    ∃ r, authUtils.isAuthenticated jsonParse b = (b, .ok r) ∧
      (r = true ↔
        ((∃ token, getItem "admin_token" b.localStorage = some token ∧ token ≠ "") ∧
          ∃ u v, getItem "admin_user" b.localStorage = some u ∧ jsonParse u = .ok v ∧
            v.truthy = true)) := by
  rcases hvalid with hnone | ⟨u, v, hu, hv⟩
  · refine ⟨_, isAuthenticated_of_user jsonParse b .null
      (getUser_of_absent jsonParse b hnone), ?_⟩
    constructor
    · intro h
      cases hg : getItem "admin_token" b.localStorage with
      | none => rw [hg] at h; cases h
      | some token =>
        rw [hg] at h
        simp [JSValue.truthy] at h
    · rintro ⟨_, u, v, hu, _, _⟩
      rw [hnone] at hu
      cases hu
  · have hne : u ≠ "" := by
      intro h0
      rw [h0] at hv
      exact hempty v hv
    have hget : authUtils.getUser jsonParse b = (b, .ok v) := by
      rw [getUser_of_stored jsonParse b u hu hne, hv]
    refine ⟨_, isAuthenticated_of_user jsonParse b v hget, ?_⟩
    constructor
    · intro h
      cases hg : getItem "admin_token" b.localStorage with
      | none => rw [hg] at h; cases h
      | some token =>
        rw [hg] at h
        have h' : decide (token ≠ "") = true ∧ v.truthy = true := by
          simpa using h
        exact ⟨⟨token, rfl, of_decide_eq_true h'.1⟩, u, v, hu, hv, h'.2⟩
    · rintro ⟨⟨token, ht, htne⟩, u', v', hu', hv', htr⟩
      rw [hu] at hu'
      have huu : u = u' := Option.some.inj hu'
      subst huu
      rw [hv] at hv'
      have hvv : v = v' := Except.ok.inj hv'
      subst hvv
      rw [ht]
      simp [htne, htr]

/-- C18 at a storage with token "t" and user text "true", for a parser that accepts
only the text "true". -/
theorem isAuthenticated_iff_token_and_user_witness :
    (∀ v, (fun s => if s = "true" then Except.ok (JSValue.bool true)
        else Except.error (JSError.syntaxError "Unexpected token")) "" ≠ .ok v) ∧
      (getItem "admin_user"
          ({ localStorage := [("admin_token", "t"), ("admin_user", "true")],
             href := "/" } : Browser).localStorage = none ∨
        ∃ u v, getItem "admin_user"
            ({ localStorage := [("admin_token", "t"), ("admin_user", "true")],
               href := "/" } : Browser).localStorage = some u ∧
          (fun s => if s = "true" then Except.ok (JSValue.bool true)
            else Except.error (JSError.syntaxError "Unexpected token")) u = .ok v) ∧
      ∃ r, authUtils.isAuthenticated
          (fun s => if s = "true" then Except.ok (JSValue.bool true)
            else Except.error (JSError.syntaxError "Unexpected token"))
          { localStorage := [("admin_token", "t"), ("admin_user", "true")], href := "/" } =
            ({ localStorage := [("admin_token", "t"), ("admin_user", "true")],
               href := "/" }, .ok r) ∧
        (r = true ↔
          ((∃ token, getItem "admin_token"
              ({ localStorage := [("admin_token", "t"), ("admin_user", "true")],
                 href := "/" } : Browser).localStorage = some token ∧ token ≠ "") ∧
            ∃ u v, getItem "admin_user"
                ({ localStorage := [("admin_token", "t"), ("admin_user", "true")],
                   href := "/" } : Browser).localStorage = some u ∧
              (fun s => if s = "true" then Except.ok (JSValue.bool true)
                else Except.error (JSError.syntaxError "Unexpected token")) u = .ok v ∧
              v.truthy = true)) :=
  ⟨fun v h => by simp at h,
    Or.inr ⟨"true", .bool true, by decide, by simp⟩,
    isAuthenticated_iff_token_and_user _ _ (fun v h => by simp at h)
      (Or.inr ⟨"true", .bool true, by decide, by simp⟩)⟩

/-- C19. From every storage state, after `authUtils.clearAuth()` the calls `getToken()`
and `getUser()` return `null` and `isAuthenticated()` is false, every storage key other
than `admin_token` and `admin_user` keeps its value and the location is unchanged; the
storage after `authUtils.logout()` is the same one, and the location is `/login`. -/
theorem clearAuth_clears_auth_data_only (jsonParse : String → Except JSError JSValue)
    (b : Browser) :
    ((authUtils.getToken (authUtils.clearAuth b)).2 = none ∧
      (authUtils.getUser jsonParse (authUtils.clearAuth b)).2 = .ok .null ∧
      (authUtils.isAuthenticated jsonParse (authUtils.clearAuth b)).2 = .ok false ∧
      (∀ key, key ≠ "admin_token" → key ≠ "admin_user" →
        getItem key (authUtils.clearAuth b).localStorage = getItem key b.localStorage) ∧
      (authUtils.clearAuth b).href = b.href) ∧
    ((authUtils.getToken (authUtils.logout b)).2 = none ∧
      (authUtils.getUser jsonParse (authUtils.logout b)).2 = .ok .null ∧
      (authUtils.isAuthenticated jsonParse (authUtils.logout b)).2 = .ok false ∧
      (∀ key, key ≠ "admin_token" → key ≠ "admin_user" →
        getItem key (authUtils.logout b).localStorage = getItem key b.localStorage) ∧
      (authUtils.logout b).localStorage = (authUtils.clearAuth b).localStorage ∧
      (authUtils.logout b).href = "/login") := by
  have hstore : (authUtils.clearAuth b).localStorage =
      removeItem "admin_user" (removeItem "admin_token" b.localStorage) := rfl
  have hstore' : (authUtils.logout b).localStorage =
      removeItem "admin_user" (removeItem "admin_token" b.localStorage) := rfl
  have htok : getItem "admin_token"
      (removeItem "admin_user" (removeItem "admin_token" b.localStorage)) = none := by
    rw [getItem_removeItem_of_ne _ _ (by decide), getItem_removeItem_self]
  have husr : getItem "admin_user"
      (removeItem "admin_user" (removeItem "admin_token" b.localStorage)) = none :=
    getItem_removeItem_self _ _
  have hother : ∀ key, key ≠ "admin_token" → key ≠ "admin_user" →
      getItem key (removeItem "admin_user" (removeItem "admin_token" b.localStorage)) =
        getItem key b.localStorage := by
    intro key h1 h2
    rw [getItem_removeItem_of_ne _ _ h2, getItem_removeItem_of_ne _ _ h1]
  have hfacts : ∀ b' : Browser,
      b'.localStorage = removeItem "admin_user" (removeItem "admin_token" b.localStorage) →
      (authUtils.getToken b').2 = none ∧
        (authUtils.getUser jsonParse b').2 = .ok .null ∧
        (authUtils.isAuthenticated jsonParse b').2 = .ok false := by
    intro b' hb'
    have ht : getItem "admin_token" b'.localStorage = none := by rw [hb']; exact htok
    have hu : getItem "admin_user" b'.localStorage = none := by rw [hb']; exact husr
    have hgu := getUser_of_absent jsonParse b' hu
    refine ⟨ht, ?_, ?_⟩
    · rw [hgu]
    · rw [isAuthenticated_of_user jsonParse b' .null hgu, ht]
  obtain ⟨c1, c2, c3⟩ := hfacts (authUtils.clearAuth b) hstore
  obtain ⟨l1, l2, l3⟩ := hfacts (authUtils.logout b) hstore'
  exact ⟨⟨c1, c2, c3, hother, rfl⟩, ⟨l1, l2, l3, hother, rfl, rfl⟩⟩


/-! ## Claims about the legacy API objects -/

/-- Every legacy method other than `analyticsAPI.getChartData` issues, for every argument
list, the request of the method of the same name in the original module. -/
theorem legacyAPI_eq_originalAPI_of_ne (m : LegacyMethod) (args : List JSValue)
    (h : m ≠ .analyticsAPI_getChartData) : legacyAPI m args = originalAPI m args := by
  cases m <;> first | rfl | exact absurd rfl h

/-- C20, failing input. For `analyticsAPI.getChartData({ type: 'visits', date_range:
'7d' })` the original module sends the argument as the query parameters, while the legacy
object of the unified module sends `{ type: <the argument>, date_range: undefined }`:
the two requests differ in their query parameters. -/
theorem legacy_getChartData_differs :
    originalAPI .analyticsAPI_getChartData
        [.obj [("type", .str "visits"), ("date_range", .str "7d")]] =
      { method := "get", url := [.text "/analytics/chart-data"],
        params := .obj [("type", .str "visits"), ("date_range", .str "7d")],
        data := .undefined } ∧
    legacyAPI .analyticsAPI_getChartData
        [.obj [("type", .str "visits"), ("date_range", .str "7d")]] =
      { method := "get", url := [.text "/analytics/chart-data"],
        params := .obj [("type", .obj [("type", .str "visits"), ("date_range", .str "7d")]),
          ("date_range", .undefined)],
        data := .undefined } ∧
    (legacyAPI .analyticsAPI_getChartData
        [.obj [("type", .str "visits"), ("date_range", .str "7d")]]).params ≠
      (originalAPI .analyticsAPI_getChartData
        [.obj [("type", .str "visits"), ("date_range", .str "7d")]]).params := by
  refine ⟨rfl, rfl, ?_⟩
  intro h
  have h' : JSValue.obj [("type", .obj [("type", .str "visits"), ("date_range", .str "7d")]),
      ("date_range", .undefined)] =
      JSValue.obj [("type", .str "visits"), ("date_range", .str "7d")] := h
  simp at h'


/-! ## Claims about the tags of the article form -/

theorem handleAddTag_tags (st : EditorState) :
    (handleAddTag st).tags =
      if trim st.newTag ≠ [] ∧ trim st.newTag ∉ st.tags then st.tags ++ [trim st.newTag]
      else st.tags := by
  unfold handleAddTag arrayIncludes
  by_cases h1 : trim st.newTag ≠ []
  · by_cases h2 : trim st.newTag ∈ st.tags
    · simp [h2]
    · simp [h1, h2]
  · simp [h1]

theorem handleAddTag_nodup (st : EditorState) (h : st.tags.Nodup) :
    (handleAddTag st).tags.Nodup := by
  rw [handleAddTag_tags]
  split_ifs with hc
  · rw [List.nodup_append]
    refine ⟨h, List.nodup_singleton _, ?_⟩
    intro a ha hb
    rw [List.mem_singleton] at hb
    exact hc.2 (hb ▸ ha)
  · exact h

theorem handleRemoveTag_nodup (t : JSString) (st : EditorState) (h : st.tags.Nodup) :
    (handleRemoveTag t st).tags.Nodup :=
  List.Nodup.filter _ h

theorem apply_tags_nodup (st : EditorState) (a : EditorAction) (h : st.tags.Nodup) :
    (a.apply st).tags.Nodup := by
  cases a with
  | setNewTag value => exact h
  | handleAddTag => exact handleAddTag_nodup st h
  | handleRemoveTag t => exact handleRemoveTag_nodup t st h
  | setNewSEOKeyword value => exact h
  | handleAddSEOKeyword =>
    show (handleAddSEOKeyword st).tags.Nodup
    unfold handleAddSEOKeyword
    split_ifs
    · exact h
    · exact h
  | handleRemoveSEOKeyword k => exact h

theorem runActions_tags_nodup (actions : List EditorAction) :
    ∀ st : EditorState, st.tags.Nodup → (runActions st actions).tags.Nodup := by
  induction actions with
  | nil => intro st h; exact h
  | cons a rest ih =>
    intro st h
    exact ih (a.apply st) (apply_tags_nodup st a h)

/-- C21. Starting from a tag list without duplicates, every sequence of actions on the
tag and keyword controls (typing into the inputs, `handleAddTag`, `handleRemoveTag` and
the keyword handlers) leaves a tag list without duplicates; `handleAddTag` appends the
trimmed input when it is non-blank and not already present and otherwise leaves the list
unchanged; after `handleRemoveTag(t)` the tag `t` does not occur, and the remaining list
is the old one with only `t` taken out, the other tags in their order. -/
theorem tags_stay_without_duplicates (st : EditorState) (actions : List EditorAction)
    (t : JSString) (h : st.tags.Nodup) :
    (runActions st actions).tags.Nodup ∧
      ((trim st.newTag ≠ [] ∧ trim st.newTag ∉ st.tags) →
        (handleAddTag st).tags = st.tags ++ [trim st.newTag]) ∧
      (¬ (trim st.newTag ≠ [] ∧ trim st.newTag ∉ st.tags) →
        (handleAddTag st).tags = st.tags) ∧
      t ∉ (handleRemoveTag t st).tags ∧
      (handleRemoveTag t st).tags.Sublist st.tags ∧
      (∀ s, s ≠ t → (s ∈ (handleRemoveTag t st).tags ↔ s ∈ st.tags)) := by
  refine ⟨runActions_tags_nodup actions st h, ?_, ?_, ?_, ?_, ?_⟩
  · intro hc
    rw [handleAddTag_tags, if_pos hc]
  · intro hc
    rw [handleAddTag_tags, if_neg hc]
  · intro hmem
    have := (List.mem_filter.mp hmem).2
    simp at this
  · exact List.filter_sublist _
  · intro s hs
    show s ∈ st.tags.filter (fun tag => decide (tag ≠ t)) ↔ s ∈ st.tags
    rw [List.mem_filter]
    constructor
    · exact fun hm => hm.1
    · exact fun hm => ⟨hm, decide_eq_true hs⟩

/-- C21 at the tags "a", "b" with the input " c ": adding " c ", then typing "a" and
adding again, then removing "b". -/
theorem tags_stay_without_duplicates_witness :
    ({ tags := ["a".toList, "b".toList], seo_keywords := [], newTag := " c ".toList,
       newSEOKeyword := [] } : EditorState).tags.Nodup ∧
      (runActions
          { tags := ["a".toList, "b".toList], seo_keywords := [], newTag := " c ".toList,
            newSEOKeyword := [] }
          [.handleAddTag, .setNewTag "a".toList, .handleAddTag,
           .handleRemoveTag "b".toList]).tags = ["a".toList, "c".toList] ∧
      (runActions
          { tags := ["a".toList, "b".toList], seo_keywords := [], newTag := " c ".toList,
            newSEOKeyword := [] }
          [.handleAddTag, .setNewTag "a".toList, .handleAddTag,
           .handleRemoveTag "b".toList]).tags.Nodup :=
  ⟨by decide, by decide,
    (tags_stay_without_duplicates
      { tags := ["a".toList, "b".toList], seo_keywords := [], newTag := " c ".toList,
        newSEOKeyword := [] }
      [.handleAddTag, .setNewTag "a".toList, .handleAddTag, .handleRemoveTag "b".toList]
      "b".toList (by decide)).1⟩


end AdminConsole
